import Mathlib

/-!
# Azure AD Terraform provider: handler semantics

A shallow embedding of the resource and data-source handlers of the provider:

* `applicationCertificateResourceCreateMsGraph`, `applicationCertificateResourceReadMsGraph`,
  `applicationCertificateResourceDeleteMsGraph`
  (internal/services/applications/application_certificate_resource_msgraph.go),
* `applicationDataSourceReadMsGraph`
  (internal/services/applications/application_data_source_msgraph.go),
* `servicePrincipalData`, `servicePrincipalDataRead`
  (internal/services/aadgraph/service_principal_data_source.go),
* `clientConfigDataSourceReadMsGraph`
  (internal/services/serviceprincipals/client_config_data_source_msgraph.go),
* the duplicate-name guard of `azuread_group` exercised by
  internal/services/aadgraph/group_resource_test.go.

A handler is a function of the resource data it is given and of the remote directory client.
The client is an oracle: every call is answered by a function of the events that happened
before the call and of the call's arguments, so a later answer may depend on an earlier
mutation.  Every remote call, lock operation and write to the resource data is appended to a
trace, which makes statements such as "Update is never called" precise.  A handler that
dereferences a nil pointer has no result (`none`).
-/

namespace AzureAD

/-! ## Values, errors and diagnostics -/

/-- Go error values and `fmt`-style messages: a format string with its arguments, kept
unrendered (`%q` and `%s` are not expanded). -/
structure Message where
  format : String
  args : List String
deriving DecidableEq, Repr

/-- An uninterpreted sub-object of an API model (app roles, optional claims, permission
scopes, ...) that the handlers only hand over to flatten helpers. -/
structure Raw where
  repr : String
deriving DecidableEq, Repr

/-- Attribute values stored in the Terraform resource data. -/
inductive Value where
  | null
  | str (s : String)
  | bool (b : Bool)
  | strs (l : List String)
  | flat (r : Raw)
deriving DecidableEq, Repr

/-- The value written for a `*string`: the string pointed to, or null for a nil pointer. -/
def Value.ofPtr : Option String → Value
  | none => Value.null
  | some s => Value.str s

inductive Severity where
  | Error
  | Warning
deriving DecidableEq, Repr

/-- One diagnostic.  The helpers of package `tf` that build diagnostics are kept as
constructors carrying exactly the arguments of the call; `Literal` is a `diag.Diagnostic`
struct literal (severity, summary, detail, attribute path). -/
inductive Diagnostic where
  | ErrorDiagPathF (err : Option Message) (attr : String) (summary : Message)
  | ErrorDiagF (err : Option Message) (summary : Message)
  | ImportAsExistsDiag (resourceName : String) (id : String)
  | Literal (severity : Severity) (summary : Message) (detail : Option Message)
      (path : List String)
deriving DecidableEq, Repr

/-- Whether a diagnostic has error severity: the `tf.ErrorDiag...` helpers and
`tf.ImportAsExistsDiag` build error diagnostics. -/
def Diagnostic.isError : Diagnostic → Bool
  | Diagnostic.ErrorDiagPathF _ _ _ => true
  | Diagnostic.ErrorDiagF _ _ => true
  | Diagnostic.ImportAsExistsDiag _ _ => true
  | Diagnostic.Literal s _ _ _ => decide (s = Severity.Error)

/-! ## API models (hamilton `models`) -/

/-- Key credential of an application (`Type_` is the field `Type`).  Times are kept in their
RFC 3339 rendering. -/
structure KeyCredential where
  KeyId : Option String
  Type_ : Option String
  StartDateTime : Option String
  EndDateTime : Option String
deriving DecidableEq, Repr

structure ImplicitGrantSettings where
  EnableAccessTokenIssuance : Option Bool
deriving DecidableEq, Repr

structure ApplicationWeb where
  HomePageUrl : Option String
  LogoutUrl : Option String
  RedirectUris : Option (List String)
  ImplicitGrantSettings : Option ImplicitGrantSettings
deriving DecidableEq, Repr

structure ApplicationApi where
  OAuth2PermissionScopes : Raw
deriving DecidableEq, Repr

structure Application where
  ID : Option String
  AppId : Option String
  DisplayName : Option String
  KeyCredentials : Option (List KeyCredential)
  SignInAudience : String
  GroupMembershipClaims : Option String
  IdentifierUris : Option (List String)
  IsFallbackPublicClient : Option Bool
  AppRoles : Raw
  OptionalClaims : Raw
  RequiredResourceAccess : Raw
  Api : Option ApplicationApi
  Web : Option ApplicationWeb
deriving DecidableEq, Repr

/-- The Go struct literal `models.Application{ID: &id, KeyCredentials: &creds}`: every other
field has its zero value. -/
def Application.withKeyCredentials (id : String) (creds : List KeyCredential) : Application :=
  Application.mk (some id) none none (some creds) "" none none none
    (Raw.mk "") (Raw.mk "") (Raw.mk "") none none

/-! ## Trace, client and resource data -/

/-- What a handler does to the outside world and to the resource data, in order. -/
inductive Event where
  | lock (name : String) (key : String)
  | unlock (name : String) (key : String)
  | get (objectId : String)
  | update (properties : Application)
  | list (filter : String)
  | listOwners (objectId : String)
  | listComplete (filter : String)
  | setId (id : String)
  | set (key : String) (value : Value)
deriving DecidableEq, Repr

/-- Answer of `client.Get`: `(app, status, err)` with `err == nil` and a non-nil `app`, or a
non-nil `err` together with the HTTP status. -/
inductive GetResponse where
  | ok (app : Application)
  | error (status : Nat) (err : Message)
deriving DecidableEq, Repr

/-- The events so far. -/
abbrev Trace := List Event

/-- Answer of `client.List`: `(result, status, err)` with a non-nil `err`, or a possibly nil
pointer to the applications found. -/
abbrev ListResponse := Except Message (Option (List Application))

/-- Answer of `client.ListOwners`: an error, or a possibly nil pointer to the owners' ids. -/
abbrev ListOwnersResponse := Except Message (Option (List String))

/-- The Microsoft Graph applications client.  Each method gets the events before the call. -/
structure MsClient where
  Get : Trace → String → GetResponse
  Update : Trace → Application → Option Message
  List : Trace → String → ListResponse
  ListOwners : Trace → String → ListOwnersResponse

/-- The part of `schema.ResourceData` the handlers use: the resource ID and the attributes. -/
structure ResourceData where
  id : String
  attrs : List (String × Value)
deriving DecidableEq, Repr

/-- Reading a string attribute, `d.Get(key).(string)`: the empty string when it is unset. -/
def ResourceData.Get (d : ResourceData) (key : String) : String :=
  match d.attrs.lookup key with
  | some (Value.str s) => s
  | _ => ""

/-- Writing the resource ID, `d.SetId(id)`. -/
def ResourceData.SetId (d : ResourceData) (id : String) : ResourceData :=
  ResourceData.mk id d.attrs

/-- Writing an attribute, `d.Set(key, value)`: the newest entry shadows older ones. -/
def ResourceData.Set (d : ResourceData) (key : String) (value : Value) : ResourceData :=
  ResourceData.mk d.id ((key, value) :: d.attrs)

/-- What a handler returns: its diagnostics (empty for `nil`), the resource data it leaves
behind and the trace extended by its own events. -/
structure Result where
  diags : List Diagnostic
  d : ResourceData
  trace : Trace
deriving DecidableEq, Repr

/-- Handler state between two statements: resource data and trace so far. -/
structure State where
  d : ResourceData
  trace : Trace
deriving DecidableEq, Repr

/-- Statement `d.SetId(id)`. -/
def State.SetId (s : State) (id : String) : State :=
  State.mk (s.d.SetId id) (s.trace ++ [Event.setId id])

/-- Statement `tf.Set(d, key, value)` and `d.Set(key, value)`.  The write of a value of the
attribute's schema type does not fail, so the error branch after it is never taken. -/
def State.Set (s : State) (key : String) (value : Value) : State :=
  State.mk (s.d.Set key value) (s.trace ++ [Event.set key value])

/-- Appending one event. -/
def State.log (s : State) (e : Event) : State :=
  State.mk s.d (s.trace ++ [e])

/-- Leaving a handler with the given diagnostics. -/
def State.ret (s : State) (diags : List Diagnostic) : Result :=
  Result.mk diags s.d s.trace

/-! ## Composite credential identifiers (package `parse`) -/

structure CredentialId where
  ObjectId : String
  KeyType : String
  KeyId : String
deriving DecidableEq, Repr

/-- Modelled from the spec: `parse.NewCredentialID` is not among the sources; the composite
identifier has the three components parent object id, credential kind and key id. -/
def NewCredentialID (objectId keyType keyId : String) : CredentialId :=
  CredentialId.mk objectId keyType keyId

/-- Modelled from the spec: the method `String()` of `parse.CredentialId` is not among the
sources; the identifier is formatted as `parentObjectId/credentialKind/keyId`. -/
def CredentialId.format (id : CredentialId) : String :=
  id.ObjectId ++ "/" ++ id.KeyType ++ "/" ++ id.KeyId

/-- Modelled from the spec: `parse.CertificateID` is not among the sources; it parses a
composite identifier of the form `parentObjectId/credentialKind/keyId`, that is three
components separated by `/`, whose credential kind is `certificate`. -/
def CertificateID (idString : String) : Except Message CredentialId :=
  match idString.toList.splitOn '/' with
  | [o, t, k] =>
    if String.mk t = "certificate" then
      Except.ok (CredentialId.mk (String.mk o) (String.mk t) (String.mk k))
    else
      Except.error (Message.mk "unable to parse Certificate ID: %q" [idString])
  | _ => Except.error (Message.mk "unable to parse Certificate ID: %q" [idString])

/-! ## The application certificate resource -/

/-- Error of `msgraph.KeyCredentialForResource`; `attr` is `some a` when the error is a
`msgraph.CredentialError` whose `Attr()` is `a`. -/
structure KeyCredentialError where
  err : Message
  attr : Option String
deriving DecidableEq, Repr

/-- What the handlers get through `meta` and the package: the client, the lock name
`resourceApplicationName` and the helper `msgraph.KeyCredentialForResource`, none of which is
among the sources. -/
structure Provider where
  MsClient : MsClient
  resourceApplicationName : String
  KeyCredentialForResource : ResourceData → Except KeyCredentialError KeyCredential

/-- The test `cred.KeyId != nil && *cred.KeyId == keyId`. -/
def keyIdIs (cred : KeyCredential) (keyId : String) : Bool :=
  match cred.KeyId with
  | some v => decide (v = keyId)
  | none => false

/-- The loop of the create handler over `*app.KeyCredentials`: `none` when it leaves the
handler because the key id exists, otherwise `newCredentials` after the loop. -/
def createLoop (keyId : String) :
    List KeyCredential → List KeyCredential → Option (List KeyCredential)
  | [], newCredentials => some newCredentials
  | cred :: rest, newCredentials =>
    if keyIdIs cred keyId then none
    else createLoop keyId rest (newCredentials ++ [cred])

/-- The first credential with the key id, as the loop of the read handler finds it. -/
def readLoop (keyId : String) : List KeyCredential → Option KeyCredential
  | [] => none
  | cred :: rest => if keyIdIs cred keyId then some cred else readLoop keyId rest

/-- The loop of the delete handler over `*app.KeyCredentials`: a credential is appended to
`newCredentials` when `cred.KeyId != nil && *cred.KeyId != keyId`. -/
def deleteLoop (keyId : String) : List KeyCredential → List KeyCredential → List KeyCredential
  | [], newCredentials => newCredentials
  | cred :: rest, newCredentials =>
    match cred.KeyId with
    | some v =>
      if v ≠ keyId then deleteLoop keyId rest (newCredentials ++ [cred])
      else deleteLoop keyId rest newCredentials
    | none => deleteLoop keyId rest newCredentials

/-- The value `*v` of a `*string`, or the empty string for nil. -/
def strOrEmpty : Option String → String
  | some v => v
  | none => ""

/-- Handler `applicationCertificateResourceReadMsGraph`, started in state `s`. -/
def applicationCertificateResourceReadMsGraph (p : Provider) (s : State) : Result :=
  match CertificateID s.d.id with
  | Except.error err =>
    s.ret [Diagnostic.ErrorDiagPathF (some err) "id"
      (Message.mk "Parsing certificate credential with ID %q" [s.d.id])]
  | Except.ok id =>
    let s1 := s.log (Event.get id.ObjectId)
    match p.MsClient.Get s.trace id.ObjectId with
    | GetResponse.error status err =>
      if status = 404 then
        s1.ret [Diagnostic.ErrorDiagPathF none "application_object_id"
          (Message.mk "Application with object ID %q was not found" [id.ObjectId])]
      else
        s1.ret [Diagnostic.ErrorDiagPathF (some err) "application_object_id"
          (Message.mk "Retrieving Application with object ID %q" [id.ObjectId])]
    | GetResponse.ok app =>
      let credential :=
        match app.KeyCredentials with
        | some creds => readLoop id.KeyId creds
        | none => none
      match credential with
      | none => (s1.SetId "").ret []
      | some credential =>
        let s2 := s1.Set "application_object_id" (Value.str id.ObjectId)
        let s3 := s2.Set "key_id" (Value.str id.KeyId)
        let s4 := s3.Set "type" (Value.str (strOrEmpty credential.Type_))
        let s5 := s4.Set "start_date" (Value.str (strOrEmpty credential.StartDateTime))
        let s6 := s5.Set "end_date" (Value.str (strOrEmpty credential.EndDateTime))
        s6.ret []

/-- The create handler between `tf.LockByName` and the deferred `tf.UnlockByName`. -/
def createLocked (p : Provider) (credential : KeyCredential) (keyId : String)
    (id : CredentialId) (s : State) : Result :=
  let s1 := s.log (Event.get id.ObjectId)
  match p.MsClient.Get s.trace id.ObjectId with
  | GetResponse.error status err =>
    if status = 404 then
      s1.ret [Diagnostic.ErrorDiagPathF none "application_object_id"
        (Message.mk "Application with object ID %q was not found" [id.ObjectId])]
    else
      s1.ret [Diagnostic.ErrorDiagPathF (some err) "application_object_id"
        (Message.mk "Retrieving Application with object ID %q" [id.ObjectId])]
  | GetResponse.ok app =>
    let looped :=
      match app.KeyCredentials with
      | some creds => createLoop keyId creds []
      | none => some []
    match looped with
    | none =>
      s1.ret [Diagnostic.ImportAsExistsDiag "azuread_application_certificate" id.format]
    | some newCredentials =>
      let properties := Application.withKeyCredentials id.ObjectId (newCredentials ++ [credential])
      let s2 := s1.log (Event.update properties)
      match p.MsClient.Update s1.trace properties with
      | some err =>
        s2.ret [Diagnostic.ErrorDiagF (some err)
          (Message.mk "Adding certificate for application with object ID %q" [id.ObjectId])]
      | none =>
        applicationCertificateResourceReadMsGraph p (s2.SetId id.format)

/-- Handler `applicationCertificateResourceCreateMsGraph`; `none` when `*credential.KeyId`
dereferences a nil pointer. -/
def applicationCertificateResourceCreateMsGraph (p : Provider) (d : ResourceData) :
    Option Result :=
  let objectId := d.Get "application_object_id"
  match p.KeyCredentialForResource d with
  | Except.error e =>
    some ((State.mk d []).ret [Diagnostic.ErrorDiagPathF (some e.err) (strOrEmpty e.attr)
      (Message.mk "Generating certificate credentials for application with object ID %q"
        [objectId])])
  | Except.ok credential =>
    match credential.KeyId with
    | none => none
    | some keyId =>
      let id := NewCredentialID objectId "certificate" keyId
      let s := (State.mk d []).log (Event.lock p.resourceApplicationName id.ObjectId)
      let r := createLocked p credential keyId id s
      some (Result.mk r.diags r.d
        (r.trace ++ [Event.unlock p.resourceApplicationName id.ObjectId]))

/-- The delete handler between `tf.LockByName` and the deferred `tf.UnlockByName`. -/
def deleteLocked (p : Provider) (id : CredentialId) (s : State) : Result :=
  let s1 := s.log (Event.get id.ObjectId)
  match p.MsClient.Get s.trace id.ObjectId with
  | GetResponse.error status err =>
    if status = 404 then s1.ret []
    else
      s1.ret [Diagnostic.ErrorDiagPathF (some err) "application_object_id"
        (Message.mk "Retrieving Application with object ID %q" [id.ObjectId])]
  | GetResponse.ok app =>
    let newCredentials :=
      match app.KeyCredentials with
      | some creds => deleteLoop id.KeyId creds []
      | none => []
    let properties := Application.withKeyCredentials id.ObjectId newCredentials
    let s2 := s1.log (Event.update properties)
    match p.MsClient.Update s1.trace properties with
    | some err =>
      s2.ret [Diagnostic.ErrorDiagF (some err)
        (Message.mk "Removing certificate credential %q from application with object ID %q"
          [id.KeyId, id.ObjectId])]
    | none => s2.ret []

/-- Handler `applicationCertificateResourceDeleteMsGraph`. -/
def applicationCertificateResourceDeleteMsGraph (p : Provider) (d : ResourceData) : Result :=
  match CertificateID d.id with
  | Except.error err =>
    (State.mk d []).ret [Diagnostic.ErrorDiagPathF (some err) "id"
      (Message.mk "Parsing certificate credential with ID %q" [d.id])]
  | Except.ok id =>
    let s := (State.mk d []).log (Event.lock p.resourceApplicationName id.ObjectId)
    let r := deleteLocked p id s
    Result.mk r.diags r.d (r.trace ++ [Event.unlock p.resourceApplicationName id.ObjectId])

/-- Whether the trace holds a call of `client.Update`. -/
def callsUpdate (t : Trace) : Bool :=
  t.any fun e => match e with
    | Event.update _ => true
    | _ => false

/-- Whether the trace holds a `d.SetId`. -/
def setsId (t : Trace) : Bool :=
  t.any fun e => match e with
    | Event.setId _ => true
    | _ => false

/-- The arguments of the calls of `client.Update` in the trace, in order. -/
def updates (t : Trace) : List Application :=
  t.filterMap fun e => match e with
    | Event.update a => some a
    | _ => none

/-! ## The application data source -/

/-- The flatten helpers of the package and of `tf`, none of which is among the sources. -/
structure ApplicationFlatten where
  flattenApplicationAppRoles : Raw → Value
  flattenApplicationOptionalClaims : Raw → Value
  flattenApplicationRequiredResourceAccess : Raw → Value
  flattenApplicationOAuth2Permissions : Raw → Value
  FlattenStringSlicePtr : Option (List String) → Value

/-- The constant `models.SignInAudienceAzureADMultipleOrgs`. -/
def SignInAudienceAzureADMultipleOrgs : String := "AzureADMultipleOrgs"

/-- The value written for a `*bool`. -/
def Value.ofBoolPtr : Option Bool → Value
  | none => Value.null
  | some b => Value.bool b

/-- The value written for a `*[]string`. -/
def Value.ofStringsPtr : Option (List String) → Value
  | none => Value.null
  | some l => Value.strs l

/-- The block `if app.Web != nil` of the application data source. -/
def applicationDataSourceSetWeb (fl : ApplicationFlatten) (app : Application) (s : State) :
    State :=
  match app.Web with
  | none => s
  | some web =>
    let s1 := s.Set "homepage" (Value.ofPtr web.HomePageUrl)
    let s2 := s1.Set "logout_url" (Value.ofPtr web.LogoutUrl)
    let s3 := s2.Set "reply_urls" (fl.FlattenStringSlicePtr web.RedirectUris)
    match web.ImplicitGrantSettings with
    | none => s3
    | some g => s3.Set "oauth2_allow_implicit_flow" (Value.ofBoolPtr g.EnableAccessTokenIssuance)

/-- The writes of the application data source from `d.SetId(*app.ID)` to the attribute
`type`, `id` being `*app.ID`. -/
def applicationDataSourceSetFields (fl : ApplicationFlatten) (app : Application) (id : String)
    (s : State) : State :=
  let s1 := s.SetId id
  let s2 := s1.Set "object_id" (Value.ofPtr app.ID)
  let s3 := s2.Set "application_id" (Value.ofPtr app.AppId)
  let s4 := s3.Set "app_roles" (fl.flattenApplicationAppRoles app.AppRoles)
  let s5 := s4.Set "available_to_other_tenants"
    (Value.bool (decide (app.SignInAudience = SignInAudienceAzureADMultipleOrgs)))
  let s6 := s5.Set "display_name" (Value.ofPtr app.DisplayName)
  let s7 := s6.Set "name" (Value.ofPtr app.DisplayName)
  let s8 := s7.Set "group_membership_claims" (Value.ofPtr app.GroupMembershipClaims)
  let s9 := s8.Set "identifier_uris" (fl.FlattenStringSlicePtr app.IdentifierUris)
  let s10 := s9.Set "optional_claims" (fl.flattenApplicationOptionalClaims app.OptionalClaims)
  let s11 := s10.Set "required_resource_access"
    (fl.flattenApplicationRequiredResourceAccess app.RequiredResourceAccess)
  let appType :=
    match app.IsFallbackPublicClient with
    | some true => "native"
    | _ => "webapp/api"
  s11.Set "type" (Value.str appType)

/-- The block `if app.Api != nil` of the application data source. -/
def applicationDataSourceSetApi (fl : ApplicationFlatten) (app : Application) (s : State) :
    State :=
  match app.Api with
  | none => s
  | some api =>
    s.Set "oauth2_permissions"
      (fl.flattenApplicationOAuth2Permissions api.OAuth2PermissionScopes)

/-- The application data source from `if app.ID == nil` on, the application being resolved. -/
def applicationDataSourceSetAttributes (client : MsClient) (fl : ApplicationFlatten)
    (app : Application) (s : State) : Result :=
  match app.ID with
  | none =>
    s.ret [Diagnostic.ErrorDiagF (some (Message.mk "Object ID returned for application is nil" []))
      (Message.mk "Bad API Response" [])]
  | some id =>
    let s12 := applicationDataSourceSetFields fl app id s
    let s13 := applicationDataSourceSetApi fl app s12
    let s14 := applicationDataSourceSetWeb fl app s13
    let s15 := s14.log (Event.listOwners id)
    match client.ListOwners s14.trace id with
    | Except.error err =>
      s15.ret [Diagnostic.ErrorDiagPathF (some err) "owners"
        (Message.mk "Could not retrieve owners for application with object ID %q" [id])]
    | Except.ok owners => (s15.Set "owners" (Value.ofStringsPtr owners)).ret []

/-- The choice of `fieldName` and `fieldValue` in the application data source: the first
non-empty of `application_id`, `display_name`, `name`; `none` in the final `else`. -/
def applicationDataSourceField (d : ResourceData) : Option (String × String) :=
  if d.Get "application_id" ≠ "" then some ("appId", d.Get "application_id")
  else if d.Get "display_name" ≠ "" then some ("displayName", d.Get "display_name")
  else if d.Get "name" ≠ "" then some ("displayName", d.Get "name")
  else none

/-- The checks of `switch fieldName` on the single application found: the diagnostics
returned, `none` when the handler goes on. -/
def applicationDataSourceCheckField (fieldName fieldValue filter : String) (app : Application) :
    Option Diagnostic :=
  if fieldName = "appId" then
    match app.AppId with
    | none =>
      some (Diagnostic.ErrorDiagF
        (some (Message.mk "nil AppID for applications matching filter: %q" [filter]))
        (Message.mk "Bad API Response" []))
    | some v =>
      if v ≠ fieldValue then
        some (Diagnostic.ErrorDiagF
          (some (Message.mk
            "AppID does not match (%q != %q) for applications matching filter: %q"
            [v, fieldValue, filter]))
          (Message.mk "Bad API Response" []))
      else none
  else if fieldName = "displayName" then
    match app.DisplayName with
    | none =>
      some (Diagnostic.ErrorDiagF
        (some (Message.mk "nil displayName for applications matching filter: %q" [filter]))
        (Message.mk "Bad API Response" []))
    | some v =>
      if v ≠ fieldValue then
        some (Diagnostic.ErrorDiagF
          (some (Message.mk
            "DisplayName does not match (%q != %q) for applications matching filter: %q"
            [v, fieldValue, filter]))
          (Message.mk "Bad API Response" []))
      else none
  else none

/-- The filter `fmt.Sprintf("%s eq '%s'", fieldName, fieldValue)`. -/
def applicationFilter (fieldName fieldValue : String) : String :=
  fieldName ++ " eq '" ++ fieldValue ++ "'"

/-- Handler `applicationDataSourceReadMsGraph`. -/
def applicationDataSourceReadMsGraph (client : MsClient) (fl : ApplicationFlatten)
    (d : ResourceData) : Result :=
  let s := State.mk d []
  let objectId := d.Get "object_id"
  if objectId ≠ "" then
    let s1 := s.log (Event.get objectId)
    match client.Get s.trace objectId with
    | GetResponse.error status err =>
      if status = 404 then
        s1.ret [Diagnostic.ErrorDiagPathF none "object_id"
          (Message.mk "Application with object ID %q was not found" [objectId])]
      else
        s1.ret [Diagnostic.ErrorDiagPathF (some err) "application_object_id"
          (Message.mk "Retrieving Application with object ID %q" [objectId])]
    | GetResponse.ok app => applicationDataSourceSetAttributes client fl app s1
  else
    match applicationDataSourceField d with
    | none =>
      s.ret [Diagnostic.ErrorDiagF none
        (Message.mk "One of `object_id`, `application_id` or `displayName` must be specified"
          [])]
    | some (fieldName, fieldValue) =>
      let filter := applicationFilter fieldName fieldValue
      let s1 := s.log (Event.list filter)
      match client.List s.trace filter with
      | Except.error err =>
        s1.ret [Diagnostic.ErrorDiagF (some err)
          (Message.mk "Listing applications for filter %q" [filter])]
      | Except.ok none =>
        s1.ret [Diagnostic.ErrorDiagF
          (some (Message.mk "No applications found matching filter: %q" [filter]))
          (Message.mk "Application not found" [])]
      | Except.ok (some []) =>
        s1.ret [Diagnostic.ErrorDiagF
          (some (Message.mk "No applications found matching filter: %q" [filter]))
          (Message.mk "Application not found" [])]
      | Except.ok (some (_ :: _ :: _)) =>
        s1.ret [Diagnostic.ErrorDiagF
          (some (Message.mk "Found multiple applications matching filter: %q" [filter]))
          (Message.mk "Multiple applications found" [])]
      | Except.ok (some [app]) =>
        match applicationDataSourceCheckField fieldName fieldValue filter app with
        | some dg => s1.ret [dg]
        | none => applicationDataSourceSetAttributes client fl app s1

/-- The lookups of a trace: its calls of `client.Get`, `client.List` and
`client.ListComplete`, in order. -/
def lookups (t : Trace) : List Event :=
  t.filter fun e => match e with
    | Event.get _ => true
    | Event.list _ => true
    | Event.listComplete _ => true
    | _ => false

/-- The field of the application that a filter on `fieldName` queries. -/
def queriedField (fieldName : String) (app : Application) : Option String :=
  if fieldName = "appId" then app.AppId else app.DisplayName

/-! ## The service principal data source (AAD Graph) -/

/-- The fields of `graphrbac.ServicePrincipal` that the data source reads. -/
structure ServicePrincipal where
  ObjectID : Option String
  AppID : Option String
  DisplayName : Option String
  AppRoles : Raw
  Oauth2Permissions : Raw
deriving DecidableEq, Repr

/-- Answer of `client.Get` of the service principals client: the service principal, or an
error together with the outcome of `utils.ResponseWasNotFound(app.Response)`. -/
inductive ServicePrincipalGetResponse where
  | ok (sp : ServicePrincipal)
  | error (notFound : Bool) (err : Message)
deriving DecidableEq, Repr

/-- Answer of `client.ListComplete`: an error, or the pointer `apps.Response().Value`. -/
abbrev ListCompleteResponse := Except Message (Option (List ServicePrincipal))

/-- The AAD Graph service principals client.  Each method gets the events before the call. -/
structure ServicePrincipalsClient where
  Get : Trace → String → ServicePrincipalGetResponse
  ListComplete : Trace → String → ListCompleteResponse

/-- The flatten helpers of package `graph`, which are not among the sources. -/
structure GraphFlatten where
  FlattenAppRoles : Raw → Value
  FlattenOauth2Permissions : Raw → Value

inductive ValueType where
  | TypeString
  | TypeList
deriving DecidableEq, Repr

/-- The fields of `schema.Schema` set in `servicePrincipalData` (`Type_` is the field `Type`,
`ValidateDiagFunc` the name of the validator). -/
structure Schema where
  Type_ : ValueType
  Optional : Bool
  Computed : Bool
  ValidateDiagFunc : Option String
  ConflictsWith : List String
deriving DecidableEq, Repr

/-- The schema map of `servicePrincipalData`; the entries `app_roles` and
`oauth2_permissions` come from helpers of package `graph` that are not among the sources. -/
def servicePrincipalData (SchemaAppRolesComputed SchemaOauth2PermissionsComputed : Schema) :
    List (String × Schema) :=
  [("object_id", Schema.mk ValueType.TypeString true true (some "validate.UUID")
      ["display_name", "application_id"]),
    ("display_name", Schema.mk ValueType.TypeString true true (some "validate.NoEmptyStrings")
      ["object_id", "application_id"]),
    ("application_id", Schema.mk ValueType.TypeString true true (some "validate.UUID")
      ["object_id", "display_name"]),
    ("app_roles", SchemaAppRolesComputed),
    ("oauth2_permissions", SchemaOauth2PermissionsComputed)]

/-- Reading with `d.GetOk(key)`: the string and whether it is set to a non-zero value. -/
def ResourceData.GetOk (d : ResourceData) (key : String) : String × Bool :=
  (d.Get key, decide (d.Get key ≠ ""))

/-- The loop of the `display_name` branch: the first element whose DisplayName is non-nil and
equal to `displayName`. -/
def findByDisplayName (displayName : String) : List ServicePrincipal → Option ServicePrincipal
  | [] => none
  | app :: rest =>
    match app.DisplayName with
    | none => findByDisplayName displayName rest
    | some v => if v = displayName then some app else findByDisplayName displayName rest

/-- The loop of the `application_id` branch: the first element whose AppID is non-nil and
equal to `applicationId`. -/
def findByAppID (applicationId : String) : List ServicePrincipal → Option ServicePrincipal
  | [] => none
  | app :: rest =>
    match app.AppID with
    | none => findByAppID applicationId rest
    | some v => if v = applicationId then some app else findByAppID applicationId rest

/-- The service principal data source from `if sp.ObjectID == nil` on. -/
def servicePrincipalDataSetAttributes (fl : GraphFlatten) (sp : ServicePrincipal) (s : State) :
    Result :=
  match sp.ObjectID with
  | none =>
    s.ret [Diagnostic.Literal Severity.Error (Message.mk "Bad API response" [])
      (some (Message.mk "ObjectID returned for service principal is nil" [])) []]
  | some id =>
    let s1 := s.SetId id
    let s2 := s1.Set "object_id" (Value.ofPtr sp.ObjectID)
    let s3 := s2.Set "application_id" (Value.ofPtr sp.AppID)
    let s4 := s3.Set "display_name" (Value.ofPtr sp.DisplayName)
    let s5 := s4.Set "app_roles" (fl.FlattenAppRoles sp.AppRoles)
    let s6 := s5.Set "oauth2_permissions" (fl.FlattenOauth2Permissions sp.Oauth2Permissions)
    s6.ret []

/-- Handler `servicePrincipalDataRead`; `none` when `*apps.Response().Value` dereferences a
nil pointer. -/
def servicePrincipalDataRead (client : ServicePrincipalsClient) (fl : GraphFlatten)
    (d : ResourceData) : Option Result :=
  let s := State.mk d []
  if (d.GetOk "object_id").2 then
    let objectId := (d.GetOk "object_id").1
    let s1 := s.log (Event.get objectId)
    match client.Get s.trace objectId with
    | ServicePrincipalGetResponse.error notFound err =>
      if notFound then
        some (s1.ret [Diagnostic.Literal Severity.Error
          (Message.mk "Service Principal with object ID %q was not found" [objectId]) none []])
      else
        some (s1.ret [Diagnostic.Literal Severity.Error
          (Message.mk "Retrieving service principal with object ID: %q" [objectId]) (some err)
          ["object_id"]])
    | ServicePrincipalGetResponse.ok app => some (servicePrincipalDataSetAttributes fl app s1)
  else if (d.GetOk "display_name").2 then
    let displayName := d.Get "display_name"
    let filter := "displayName eq '" ++ displayName ++ "'"
    let s1 := s.log (Event.listComplete filter)
    match client.ListComplete s.trace filter with
    | Except.error err =>
      some (s1.ret [Diagnostic.Literal Severity.Error
        (Message.mk "Listing service principals for filter %q" [filter]) (some err) []])
    | Except.ok none => none
    | Except.ok (some apps) =>
      match findByDisplayName displayName apps with
      | none =>
        some (s1.ret [Diagnostic.Literal Severity.Error
          (Message.mk "Service principal not found" [])
          (some (Message.mk "No service principal found matching display name: %q"
            [displayName])) []])
      | some sp => some (servicePrincipalDataSetAttributes fl sp s1)
  else
    let applicationId := d.Get "application_id"
    let filter := "appId eq '" ++ applicationId ++ "'"
    let s1 := s.log (Event.listComplete filter)
    match client.ListComplete s.trace filter with
    | Except.error err =>
      some (s1.ret [Diagnostic.Literal Severity.Error
        (Message.mk "Listing service principals for filter %q" [filter]) (some err) []])
    | Except.ok none => none
    | Except.ok (some apps) =>
      match findByAppID applicationId apps with
      | none =>
        some (s1.ret [Diagnostic.Literal Severity.Error
          (Message.mk "Service principal not found" [])
          (some (Message.mk "No service principal found for application ID: %q"
            [applicationId])) []])
      | some sp => some (servicePrincipalDataSetAttributes fl sp s1)

/-! ## The group resource: duplicate-name guard -/

/-- Modelled from the spec: a group of the directory; the typed model of the remote entity
Group is not among the sources. -/
structure Group where
  ObjectID : Option String
  DisplayName : Option String
deriving DecidableEq, Repr

/-- Modelled from the spec: the pre-write existence probe by filter of the "prevent
duplicate" guard, which finds a group of the directory with the given name; the group
resource handlers are not among the sources. -/
def groupFindByName (directory : List Group) (name : String) : Option Group :=
  directory.find? fun g => decide (g.DisplayName = some name)

/-- Modelled from the spec: the quoting of a name in an error text, in double quotes with
double quote, backslash and line feed escaped; the error helpers are not among the
sources. -/
def quoteChar (c : Char) : List Char :=
  if c = '"' then ['\\', '"']
  else if c = '\\' then ['\\', '\\']
  else if c = '\n' then ['\\', 'n']
  else [c]

/-- Modelled from the spec: the quoted name, see `quoteChar`. -/
def quote (name : String) : String :=
  String.mk ('"' :: (name.toList.flatMap quoteChar ++ ['"']))

/-- Modelled from the spec: the text of the Conflict error of the duplicate-name guard, of
the shape expected by the acceptance test; the group resource handlers are not among the
sources. -/
def groupDuplicateError (name : String) : String :=
  "existing Group " ++ quote name ++ " was found"

/-- Modelled from the spec: whether `prevent_duplicate_names` is configured as true. -/
def preventDuplicateNames (d : ResourceData) : Bool :=
  match d.attrs.lookup "prevent_duplicate_names" with
  | some (Value.bool b) => b
  | _ => false

/-- Modelled from the spec: create of `azuread_group`, whose handler is not among the
sources.  With the "prevent duplicate" guard configured a same-named group found by the
probe is a Conflict error; otherwise the group is created in the directory under the object
id the directory assigns, and the state holds its id and name. -/
def groupResourceCreate (directory : List Group) (objectId : String) (d : ResourceData) :
    Except String (List Group × ResourceData) :=
  let name := d.Get "name"
  let created : List Group × ResourceData :=
    (directory ++ [Group.mk (some objectId) (some name)],
      (d.SetId objectId).Set "name" (Value.str name))
  if preventDuplicateNames d then
    match groupFindByName directory name with
    | some _ => Except.error (groupDuplicateError name)
    | none => Except.ok created
  else Except.ok created

/-- The rest of `text` after the literal `lit`, when `text` starts with it. -/
def afterLiteral : List Char → List Char → Option (List Char)
  | [], text => some text
  | _ :: _, [] => none
  | c :: lit, x :: text => if c = x then afterLiteral lit text else none

/-- Matching `.+` followed by the literal `lit` at the start of the text: one or more
characters other than the line feed, then `lit`. -/
def dotPlusThen (lit : List Char) : List Char → Bool
  | [] => false
  | c :: rest => decide (c ≠ '\n') && ((afterLiteral lit rest).isSome || dotPlusThen lit rest)

/-- Whether the regular expression `existing Group .+ was found`, the `ExpectError` of
`TestAccGroup_preventDuplicateNamesFail`, matches somewhere in the text. -/
def matchesExistingGroupWasFound (text : String) : Bool :=
  text.toList.tails.any fun t =>
    match afterLiteral "existing Group ".toList t with
    | some rest => dotPlusThen " was found".toList rest
    | none => false

/-! ## Locks and remote calls in a trace -/

/-- Whether the event is a call of a remote client. -/
def Event.isRemote : Event → Bool
  | Event.get _ => true
  | Event.update _ => true
  | Event.list _ => true
  | Event.listOwners _ => true
  | Event.listComplete _ => true
  | _ => false

/-- Whether the event is `tf.LockByName` or `tf.UnlockByName`. -/
def Event.isLock : Event → Bool
  | Event.lock _ _ => true
  | Event.unlock _ _ => true
  | _ => false

/-- The remote calls of a trace, in order. -/
def remoteCalls (t : Trace) : List Event :=
  t.filter Event.isRemote

/-- The lock operations of a trace, in order. -/
def lockEvents (t : Trace) : List Event :=
  t.filter Event.isLock

/-- The remote calls of a trace that are made while the lock is held, in order; `held` says
whether the lock is held where the trace starts. -/
def lockedCalls : Bool → Trace → List Event
  | _, [] => []
  | _, Event.lock _ _ :: t => lockedCalls true t
  | _, Event.unlock _ _ :: t => lockedCalls false t
  | held, e :: t =>
    if held && e.isRemote then e :: lockedCalls held t else lockedCalls held t

/-! ## The client configuration data source -/

/-- The field of `client.Claims` that the data source reads. -/
structure Claims where
  ObjectId : String
deriving DecidableEq, Repr

/-- The fields of `clients.Client` that the data source reads. -/
structure Client where
  TenantID : String
  ClientID : String
  Claims : Claims
deriving DecidableEq, Repr

/-- Handler `clientConfigDataSourceReadMsGraph`; the ID is
`fmt.Sprintf("%s-%s-%s", client.TenantID, client.ClientID, objectId)`. -/
def clientConfigDataSourceReadMsGraph (client : Client) (d : ResourceData) : Result :=
  let objectId := if client.Claims.ObjectId ≠ "" then client.Claims.ObjectId else ""
  let s1 := (State.mk d []).SetId (client.TenantID ++ "-" ++ client.ClientID ++ "-" ++ objectId)
  let s2 := s1.Set "tenant_id" (Value.str client.TenantID)
  let s3 := s2.Set "client_id" (Value.str client.ClientID)
  let s4 := s3.Set "object_id" (Value.str objectId)
  s4.ret []

/-! ## Sample inputs -/

/-- Object id of the sample application. -/
def sampleObjectId : String := "5f8c7d1e-0a2b-4c3d-9e4f-112233445566"

/-- Key id of the sample certificate. -/
def sampleKeyId : String := "0b1c2d3e-4f50-4a6b-8c7d-8e9f0a1b2c3d"

/-- Key id of another certificate. -/
def otherKeyId : String := "9a8b7c6d-5e4f-4a3b-9c2d-1e0f9a8b7c6d"

/-- Resource ID of the sample certificate. -/
def sampleCertificateId : String :=
  "5f8c7d1e-0a2b-4c3d-9e4f-112233445566/certificate/0b1c2d3e-4f50-4a6b-8c7d-8e9f0a1b2c3d"

/-- A certificate credential with the given key id. -/
def sampleCredential (keyId : Option String) : KeyCredential :=
  KeyCredential.mk keyId (some "AsymmetricX509Cert") (some "2021-01-01T00:00:00Z")
    (some "2022-01-01T00:00:00Z")

/-- An application with object id `sampleObjectId` and the given key credentials. -/
def sampleApplication (creds : Option (List KeyCredential)) : Application :=
  Application.mk (some sampleObjectId) (some "a1") (some "app one") creds "AzureADMyOrg" none
    none none
    (Raw.mk "") (Raw.mk "") (Raw.mk "") none none

/-- A client whose Get answers with `get` and whose other calls succeed. -/
def sampleClient (get : GetResponse) : MsClient :=
  MsClient.mk (fun _ _ => get) (fun _ _ => none) (fun _ _ => Except.ok none)
    (fun _ _ => Except.ok none)

/-- A provider over `sampleClient` that generates the credential with key id `sampleKeyId`. -/
def sampleProvider (get : GetResponse) : Provider :=
  Provider.mk (sampleClient get) "azuread_application"
    (fun _ => Except.ok (sampleCredential (some sampleKeyId)))

/-- The sample certificate credential. -/
def sampleCert : KeyCredential := sampleCredential (some sampleKeyId)

/-- Another certificate credential. -/
def otherCert : KeyCredential := sampleCredential (some otherKeyId)

/-- A certificate credential without key id. -/
def nilCert : KeyCredential := sampleCredential none

/-- The provider whose Get returns the sample application with the given key credentials. -/
def providerWith (creds : List KeyCredential) : Provider :=
  sampleProvider (GetResponse.ok (sampleApplication (some creds)))

/-- The parsed resource ID of the sample certificate. -/
def sampleCredentialId : CredentialId :=
  CredentialId.mk sampleObjectId "certificate" sampleKeyId

/-- Configuration of a certificate for the sample application, before create. -/
def sampleConfig : ResourceData :=
  ResourceData.mk "" [("application_object_id", Value.str sampleObjectId)]

/-- State of the sample certificate of the sample application. -/
def sampleState : ResourceData :=
  ResourceData.mk sampleCertificateId [("application_object_id", Value.str sampleObjectId)]

/-- A client whose List answers with `list`, whose Get finds nothing and whose other calls
succeed. -/
def sampleListClient (list : ListResponse) : MsClient :=
  MsClient.mk (fun _ _ => GetResponse.error 404 (Message.mk "not found" []))
    (fun _ _ => none) (fun _ _ => list) (fun _ _ => Except.ok (some ["owner1"]))

/-- Flatten helpers that keep the sub-object as it is. -/
def sampleFlatten : ApplicationFlatten :=
  ApplicationFlatten.mk Value.flat Value.flat Value.flat Value.flat Value.ofStringsPtr

/-- Configuration of the application data source with `display_name` only. -/
def sampleByDisplayName : ResourceData :=
  ResourceData.mk "" [("display_name", Value.str "app one")]

/-- A service principals client whose ListComplete answers with `list` and whose Get finds
nothing. -/
def sampleServicePrincipalsClient (list : ListCompleteResponse) : ServicePrincipalsClient :=
  ServicePrincipalsClient.mk
    (fun _ _ => ServicePrincipalGetResponse.error true (Message.mk "not found" []))
    (fun _ _ => list)

/-- Flatten helpers of package `graph` that keep the sub-object as it is. -/
def sampleGraphFlatten : GraphFlatten :=
  GraphFlatten.mk Value.flat Value.flat

/-- A configuration of the service principal data source with none of `object_id`,
`display_name`, `application_id` set. -/
def sampleNoKey : ResourceData :=
  ResourceData.mk "" []

/-- A service principal whose AppID is a pointer to the empty string. -/
def sampleEmptyAppID : ServicePrincipal :=
  ServicePrincipal.mk (some "sp1") (some "") (some "sp one") (Raw.mk "") (Raw.mk "")

/-- A directory with two groups. -/
def sampleDirectory : List Group :=
  [Group.mk (some "g1") (some "acctestGroup-1"), Group.mk (some "g2") (some "other")]

/-- Configuration of a group with the "prevent duplicate" guard. -/
def sampleGroupConfig (name : String) : ResourceData :=
  ResourceData.mk "" [("name", Value.str name), ("prevent_duplicate_names", Value.bool true)]

/-- A directory client holding one application: Get answers with the application, its key
credentials being those of the latest Update; Update succeeds. -/
def directoryClient (app : Application) : MsClient :=
  MsClient.mk
    (fun t _ =>
      match (updates t).getLast? with
      | some u =>
        GetResponse.ok (Application.mk app.ID app.AppId app.DisplayName u.KeyCredentials
          app.SignInAudience app.GroupMembershipClaims app.IdentifierUris
          app.IsFallbackPublicClient app.AppRoles app.OptionalClaims app.RequiredResourceAccess
          app.Api app.Web)
      | none => GetResponse.ok app)
    (fun _ _ => none) (fun _ _ => Except.ok none) (fun _ _ => Except.ok none)

/-- A provider over `directoryClient` that generates the sample certificate credential. -/
def directoryProvider (creds : List KeyCredential) : Provider :=
  Provider.mk (directoryClient (sampleApplication (some creds))) "azuread_application"
    (fun _ => Except.ok sampleCert)

/-- A service principal with the given object id and display name. -/
def sampleServicePrincipal (objectId : String) (displayName : Option String) :
    ServicePrincipal :=
  ServicePrincipal.mk (some objectId) (some "a1") displayName (Raw.mk "") (Raw.mk "")

/-- Configuration of the service principal data source with `display_name` only. -/
def sampleSpByDisplayName : ResourceData :=
  ResourceData.mk "" [("display_name", Value.str "sp one")]

/-- A client configuration without object id in the claims. -/
def sampleClientConfig : Client :=
  Client.mk "tenant1" "client1" (Claims.mk "")

/-- A service principal named `sp one` for which the API returns no object id. -/
def sampleNoObjectId : ServicePrincipal :=
  ServicePrincipal.mk none (some "a1") (some "sp one") (Raw.mk "") (Raw.mk "")

/-! # Properties -/

/-! ## Lemmas on the credential loops -/

theorem keyIdIs_iff (cred : KeyCredential) (keyId : String) :
    keyIdIs cred keyId = true ↔ cred.KeyId = some keyId := by
  unfold keyIdIs
  cases h : cred.KeyId <;> simp

theorem createLoop_eq_none_iff (keyId : String) (creds acc : List KeyCredential) :
    createLoop keyId creds acc = none ↔ ∃ cred ∈ creds, cred.KeyId = some keyId := by
  induction creds generalizing acc with
  | nil => simp [createLoop]
  | cons cred rest ih =>
    by_cases h : keyIdIs cred keyId = true
    · have hk := (keyIdIs_iff cred keyId).mp h
      simp [createLoop, h, hk]
    · have hk : ¬ cred.KeyId = some keyId := fun e => h ((keyIdIs_iff cred keyId).mpr e)
      simp [createLoop, h, hk, ih]

theorem createLoop_eq_append (keyId : String) (creds acc : List KeyCredential)
    (h : ∀ cred ∈ creds, cred.KeyId ≠ some keyId) :
    createLoop keyId creds acc = some (acc ++ creds) := by
  induction creds generalizing acc with
  | nil => simp [createLoop]
  | cons cred rest ih =>
    have hk : ¬ keyIdIs cred keyId = true :=
      fun e => h cred (List.mem_cons_self _ _) ((keyIdIs_iff cred keyId).mp e)
    have hrest : ∀ c ∈ rest, c.KeyId ≠ some keyId :=
      fun c hc => h c (List.mem_cons_of_mem _ hc)
    simp [createLoop, hk, ih _ hrest]

theorem readLoop_eq_none_iff (keyId : String) (creds : List KeyCredential) :
    readLoop keyId creds = none ↔ ∀ cred ∈ creds, cred.KeyId ≠ some keyId := by
  induction creds with
  | nil => simp [readLoop]
  | cons cred rest ih =>
    by_cases h : keyIdIs cred keyId = true
    · have hk := (keyIdIs_iff cred keyId).mp h
      simp [readLoop, h, hk]
    · have hk : ¬ cred.KeyId = some keyId := fun e => h ((keyIdIs_iff cred keyId).mpr e)
      simp [readLoop, h, hk, ih]

theorem deleteLoop_eq_filter (keyId : String) (creds acc : List KeyCredential) :
    deleteLoop keyId creds acc =
      acc ++ creds.filter
        (fun cred => decide (cred.KeyId ≠ none ∧ cred.KeyId ≠ some keyId)) := by
  induction creds generalizing acc with
  | nil => simp [deleteLoop]
  | cons cred rest ih =>
    cases hk : cred.KeyId with
    | none => simp [deleteLoop, hk, ih]
    | some v =>
      by_cases hv : v = keyId
      · simp [deleteLoop, hk, hv, ih]
      · simp [deleteLoop, hk, hv, ih]

/-! ## Lemmas on traces -/

theorem updates_append (t u : Trace) : updates (t ++ u) = updates t ++ updates u := by
  simp [updates, List.filterMap_append]

theorem callsUpdate_append (t u : Trace) :
    callsUpdate (t ++ u) = (callsUpdate t || callsUpdate u) := by
  simp [callsUpdate, List.any_append]

theorem setsId_append (t u : Trace) : setsId (t ++ u) = (setsId t || setsId u) := by
  simp [setsId, List.any_append]

/-- The read handler never calls `client.Update`. -/
theorem read_updates (p : Provider) (s : State) :
    updates (applicationCertificateResourceReadMsGraph p s).trace = updates s.trace := by
  unfold applicationCertificateResourceReadMsGraph
  cases CertificateID s.d.id with
  | error err => rfl
  | ok id =>
    simp only
    cases p.MsClient.Get s.trace id.ObjectId with
    | error status err =>
      by_cases h : status = 404 <;> simp [h, State.ret, State.log, updates_append, updates]
    | ok app =>
      simp only
      split <;> simp [State.ret, State.log, State.Set, State.SetId, updates_append, updates]

/-! ## The certificate resource: create -/

/-- The create handler once the credential has been generated with a key id. -/
theorem create_of_credential (p : Provider) (d : ResourceData) (c : KeyCredential)
    (k : String) (hc : p.KeyCredentialForResource d = Except.ok c) (hk : c.KeyId = some k) :
    applicationCertificateResourceCreateMsGraph p d =
      some (Result.mk
        (createLocked p c k (NewCredentialID (d.Get "application_object_id") "certificate" k)
          ((State.mk d []).log
            (Event.lock p.resourceApplicationName (d.Get "application_object_id")))).diags
        (createLocked p c k (NewCredentialID (d.Get "application_object_id") "certificate" k)
          ((State.mk d []).log
            (Event.lock p.resourceApplicationName (d.Get "application_object_id")))).d
        ((createLocked p c k (NewCredentialID (d.Get "application_object_id") "certificate" k)
          ((State.mk d []).log
            (Event.lock p.resourceApplicationName (d.Get "application_object_id")))).trace ++
          [Event.unlock p.resourceApplicationName (d.Get "application_object_id")])) := by
  simp only [applicationCertificateResourceCreateMsGraph, hc, hk]
  rfl

/-- C1: when the application returned by Get already has a key credential whose non-nil KeyId
equals the key id of the new credential, the create handler returns exactly the
"already exists, import it" error diagnostic for `azuread_application_certificate`, makes no
call of Update (its only remote call is the Get, between lock and unlock) and leaves the
resource data, the resource ID included, untouched. -/
theorem create_existing_key_id (p : Provider) (d : ResourceData) (c : KeyCredential)
    (k : String) (app : Application) (creds : List KeyCredential)
    (hc : p.KeyCredentialForResource d = Except.ok c) (hk : c.KeyId = some k)
    (hget : p.MsClient.Get
        [Event.lock p.resourceApplicationName (d.Get "application_object_id")]
        (d.Get "application_object_id") = GetResponse.ok app)
    (hcreds : app.KeyCredentials = some creds)
    (hex : ∃ cred ∈ creds, cred.KeyId = some k) :
    ∃ r, applicationCertificateResourceCreateMsGraph p d = some r ∧
      r.diags = [Diagnostic.ImportAsExistsDiag "azuread_application_certificate"
        (NewCredentialID (d.Get "application_object_id") "certificate" k).format] ∧
      (∀ dg ∈ r.diags, dg.isError = true) ∧
      r.trace = [Event.lock p.resourceApplicationName (d.Get "application_object_id"),
        Event.get (d.Get "application_object_id"),
        Event.unlock p.resourceApplicationName (d.Get "application_object_id")] ∧
      callsUpdate r.trace = false ∧ setsId r.trace = false ∧ r.d = d := by
  have hloop : createLoop k creds [] = none := (createLoop_eq_none_iff k creds []).mpr hex
  refine ⟨_, create_of_credential p d c k hc hk, ?_⟩
  simp [createLocked, NewCredentialID, State.log, State.ret, hget, hcreds, hloop,
      Diagnostic.isError, callsUpdate, setsId]

/-- C2: when no key credential of the application returned by Get has the new credential's key
id (a nil list counting as empty), the create handler calls Update exactly once, with an
Application whose ID is the given `application_object_id` and whose KeyCredentials are the
existing list followed by the new credential. -/
theorem create_appends_credential (p : Provider) (d : ResourceData) (c : KeyCredential)
    (k : String) (app : Application)
    (hc : p.KeyCredentialForResource d = Except.ok c) (hk : c.KeyId = some k)
    (hget : p.MsClient.Get
        [Event.lock p.resourceApplicationName (d.Get "application_object_id")]
        (d.Get "application_object_id") = GetResponse.ok app)
    (hno : ∀ cred ∈ app.KeyCredentials.getD [], cred.KeyId ≠ some k) :
    ∃ r properties, applicationCertificateResourceCreateMsGraph p d = some r ∧
      updates r.trace = [properties] ∧
      properties.ID = some (d.Get "application_object_id") ∧
      properties.KeyCredentials = some (app.KeyCredentials.getD [] ++ [c]) ∧
      properties = Application.withKeyCredentials (d.Get "application_object_id")
        (app.KeyCredentials.getD [] ++ [c]) := by
  have hloop : (match app.KeyCredentials with
      | some creds => createLoop k creds []
      | none => some []) = some (app.KeyCredentials.getD []) := by
    cases hcr : app.KeyCredentials with
    | none => rfl
    | some creds =>
      rw [hcr] at hno
      simpa using createLoop_eq_append k creds [] hno
  refine ⟨_, Application.withKeyCredentials (d.Get "application_object_id")
    (app.KeyCredentials.getD [] ++ [c]), create_of_credential p d c k hc hk, ?_, rfl, rfl, rfl⟩
  simp only [createLocked, NewCredentialID, State.log, List.nil_append, hget, hloop]
  split
  · simp [State.ret, updates]
  · rw [updates_append, read_updates]
    simp [State.SetId, updates]

theorem create_existing_key_id_witness :
    (providerWith [otherCert, sampleCert]).KeyCredentialForResource sampleConfig =
        Except.ok sampleCert ∧
      Option.map Result.diags (applicationCertificateResourceCreateMsGraph
        (providerWith [otherCert, sampleCert]) sampleConfig) =
        some [Diagnostic.ImportAsExistsDiag "azuread_application_certificate"
          sampleCertificateId] :=
  ⟨rfl, by
    obtain ⟨r, hr, hd, _⟩ := create_existing_key_id (providerWith [otherCert, sampleCert])
      sampleConfig sampleCert sampleKeyId (sampleApplication (some [otherCert, sampleCert]))
      [otherCert, sampleCert] rfl rfl rfl rfl ⟨sampleCert, by simp, rfl⟩
    rw [hr, Option.map_some', hd]
    rfl⟩

theorem create_appends_credential_witness :
    (∀ cred ∈ (sampleApplication (some [otherCert])).KeyCredentials.getD [],
        cred.KeyId ≠ some sampleKeyId) ∧
      Option.map (fun r => updates r.trace) (applicationCertificateResourceCreateMsGraph
        (providerWith [otherCert]) sampleConfig) =
        some [Application.withKeyCredentials sampleObjectId [otherCert, sampleCert]] :=
  ⟨by decide, by
    obtain ⟨r, q, hr, hu, _, _, hq⟩ := create_appends_credential (providerWith [otherCert])
      sampleConfig sampleCert sampleKeyId (sampleApplication (some [otherCert])) rfl rfl rfl
      (by decide)
    rw [hr, Option.map_some', hu, hq]
    rfl⟩

/-! ## Composite identifiers -/

theorem format_toList (o t k : String) :
    (CredentialId.mk o t k).format.toList =
      [('/' : Char)].intercalate [o.toList, t.toList, k.toList] := by
  simp [CredentialId.format, String.toList, List.intercalate]

theorem CertificateID_format (o k : String) (ho : '/' ∉ o.toList) (hk : '/' ∉ k.toList) :
    CertificateID (CredentialId.mk o "certificate" k).format =
      Except.ok (CredentialId.mk o "certificate" k) := by
  have hsplit : (CredentialId.mk o "certificate" k).format.toList.splitOn '/' =
      [o.toList, "certificate".toList, k.toList] := by
    rw [format_toList]
    apply List.splitOn_intercalate
    · intro l hl
      simp only [List.mem_cons, List.mem_singleton, List.not_mem_nil, or_false] at hl
      rcases hl with rfl | rfl | rfl
      · exact ho
      · decide
      · exact hk
    · simp
  unfold CertificateID
  rw [hsplit]
  rfl

theorem CertificateID_ne_empty (idString : String) (id : CredentialId)
    (h : CertificateID idString = Except.ok id) : idString ≠ "" := by
  intro he
  subst he
  have hempty : CertificateID "" =
      Except.error (Message.mk "unable to parse Certificate ID: %q" [""]) := rfl
  rw [hempty] at h
  cases h

/-- C4: the resource ID stored by the create handler for object id `o` and key id `k`,
`parse.NewCredentialID(o, "certificate", k).String()`, is the string `o/certificate/k`, and
`parse.CertificateID` succeeds on it with ObjectId `o` and KeyId `k`, for all `o` and `k` that
are free of the separator `/` (as the UUIDs accepted by create are). -/
theorem credential_id_round_trip (o k : String) (ho : '/' ∉ o.toList) (hk : '/' ∉ k.toList) :
    (NewCredentialID o "certificate" k).format = o ++ "/" ++ "certificate" ++ "/" ++ k ∧
      CertificateID (NewCredentialID o "certificate" k).format =
        Except.ok (CredentialId.mk o "certificate" k) ∧
      (CredentialId.mk o "certificate" k).ObjectId = o ∧
      (CredentialId.mk o "certificate" k).KeyId = k :=
  ⟨rfl, CertificateID_format o k ho hk, rfl, rfl⟩

theorem credential_id_round_trip_witness :
    '/' ∉ sampleObjectId.toList ∧ '/' ∉ sampleKeyId.toList ∧
      CertificateID (NewCredentialID sampleObjectId "certificate" sampleKeyId).format =
        Except.ok sampleCredentialId :=
  ⟨by decide, by decide,
    (credential_id_round_trip sampleObjectId sampleKeyId (by decide) (by decide)).2.1⟩

/-! ## The certificate resource: read and delete -/

/-- C5: for a resource ID that parses to object id `o` and key id `k`: when Get returns the
application, the read handler clears the resource ID and returns no diagnostics exactly when
no key credential of the application has the non-nil KeyId `k`; when one has, the resource ID
is left unchanged and the attributes `application_object_id` and `key_id` are set to `o` and
`k`.  When Get fails with status 404 the handler returns the "was not found" error diagnostic
and leaves the resource data, the ID included, as it was. -/
theorem read_clears_id_iff_absent (p : Provider) (s : State) (o t k : String)
    (hparse : CertificateID s.d.id = Except.ok (CredentialId.mk o t k)) :
    (∀ app, p.MsClient.Get s.trace o = GetResponse.ok app →
      (((applicationCertificateResourceReadMsGraph p s).d.id = "" ∧
          (applicationCertificateResourceReadMsGraph p s).diags = []) ↔
        ∀ cred ∈ app.KeyCredentials.getD [], cred.KeyId ≠ some k) ∧
      ((∃ cred ∈ app.KeyCredentials.getD [], cred.KeyId = some k) →
        (applicationCertificateResourceReadMsGraph p s).d.id = s.d.id ∧
        (applicationCertificateResourceReadMsGraph p s).d.Get "application_object_id" = o ∧
        (applicationCertificateResourceReadMsGraph p s).d.Get "key_id" = k)) ∧
    (∀ err, p.MsClient.Get s.trace o = GetResponse.error 404 err →
      (applicationCertificateResourceReadMsGraph p s).diags =
        [Diagnostic.ErrorDiagPathF none "application_object_id"
          (Message.mk "Application with object ID %q was not found" [o])] ∧
      (∀ dg ∈ (applicationCertificateResourceReadMsGraph p s).diags, dg.isError = true) ∧
      (applicationCertificateResourceReadMsGraph p s).d = s.d ∧
      (applicationCertificateResourceReadMsGraph p s).d.id ≠ "" ∧
      setsId (applicationCertificateResourceReadMsGraph p s).trace = setsId s.trace) := by
  have hne : s.d.id ≠ "" := CertificateID_ne_empty _ _ hparse
  refine ⟨fun app hget => ?_, fun err hget => ?_⟩
  · have hfind : (match app.KeyCredentials with
        | some creds => readLoop k creds
        | none => none) = none ↔
          ∀ cred ∈ app.KeyCredentials.getD [], cred.KeyId ≠ some k := by
      cases app.KeyCredentials with
      | none => simp
      | some creds => simpa using readLoop_eq_none_iff k creds
    cases hf : (match app.KeyCredentials with
        | some creds => readLoop k creds
        | none => none) with
    | none =>
      have hall := hfind.mp hf
      have hread : applicationCertificateResourceReadMsGraph p s =
          ((s.log (Event.get o)).SetId "").ret [] := by
        simp only [applicationCertificateResourceReadMsGraph, hparse, hget, hf]
      rw [hread]
      refine ⟨⟨fun _ => hall, fun _ => ⟨rfl, rfl⟩⟩, ?_⟩
      rintro ⟨cred, hmem, hkey⟩
      exact absurd hkey (hall cred hmem)
    | some credential =>
      have hnall : ¬ ∀ cred ∈ app.KeyCredentials.getD [], cred.KeyId ≠ some k := by
        intro hall
        rw [hfind.mpr hall] at hf
        cases hf
      have hread : applicationCertificateResourceReadMsGraph p s =
          ((((((s.log (Event.get o)).Set "application_object_id" (Value.str o)).Set "key_id"
            (Value.str k)).Set "type" (Value.str (strOrEmpty credential.Type_))).Set
            "start_date" (Value.str (strOrEmpty credential.StartDateTime))).Set "end_date"
            (Value.str (strOrEmpty credential.EndDateTime))).ret [] := by
        simp only [applicationCertificateResourceReadMsGraph, hparse, hget, hf]
      rw [hread]
      refine ⟨⟨fun h => absurd h.1 hne, fun h => absurd h hnall⟩,
        fun _ => ⟨rfl, ?_, ?_⟩⟩
      · simp [State.ret, State.Set, State.log, ResourceData.Set, ResourceData.Get, List.lookup]
      · simp [State.ret, State.Set, State.log, ResourceData.Set, ResourceData.Get, List.lookup]
  · have hread : applicationCertificateResourceReadMsGraph p s =
        (s.log (Event.get o)).ret [Diagnostic.ErrorDiagPathF none "application_object_id"
          (Message.mk "Application with object ID %q was not found" [o])] := by
      simp only [applicationCertificateResourceReadMsGraph, hparse, hget]
      rfl
    rw [hread]
    refine ⟨rfl, ?_, rfl, hne, ?_⟩
    · simp [State.ret, Diagnostic.isError]
    · simp [State.ret, State.log, setsId]

theorem read_clears_id_iff_absent_witness :
    CertificateID sampleState.id = Except.ok sampleCredentialId ∧
      (applicationCertificateResourceReadMsGraph (providerWith [otherCert])
        (State.mk sampleState [])).d.id = "" :=
  ⟨rfl, (((read_clears_id_iff_absent (providerWith [otherCert]) (State.mk sampleState [])
    sampleObjectId "certificate" sampleKeyId rfl).1
    (sampleApplication (some [otherCert])) rfl).1.mpr (by decide)).1⟩

/-- C6: for a resource ID that parses: when Get of the parent application fails with status
404 the delete handler returns no diagnostics, when it fails with another status it returns
the "Retrieving Application" error diagnostic; in both cases Update is never called (the only
remote call is the Get, between lock and unlock) and the resource data is untouched. -/
theorem delete_get_failure (p : Provider) (d : ResourceData) (o t k : String) (status : Nat)
    (err : Message) (hparse : CertificateID d.id = Except.ok (CredentialId.mk o t k))
    (hget : p.MsClient.Get [Event.lock p.resourceApplicationName o] o =
      GetResponse.error status err) :
    (status = 404 → (applicationCertificateResourceDeleteMsGraph p d).diags = []) ∧
    (status ≠ 404 → (applicationCertificateResourceDeleteMsGraph p d).diags =
      [Diagnostic.ErrorDiagPathF (some err) "application_object_id"
        (Message.mk "Retrieving Application with object ID %q" [o])] ∧
      ∀ dg ∈ (applicationCertificateResourceDeleteMsGraph p d).diags, dg.isError = true) ∧
    callsUpdate (applicationCertificateResourceDeleteMsGraph p d).trace = false ∧
    (applicationCertificateResourceDeleteMsGraph p d).trace =
      [Event.lock p.resourceApplicationName o, Event.get o,
        Event.unlock p.resourceApplicationName o] ∧
    (applicationCertificateResourceDeleteMsGraph p d).d = d := by
  by_cases h : status = 404
  · simp [applicationCertificateResourceDeleteMsGraph, deleteLocked, hparse, State.log,
      State.ret, hget, h, callsUpdate]
  · simp [applicationCertificateResourceDeleteMsGraph, deleteLocked, hparse, State.log,
      State.ret, hget, h, callsUpdate, Diagnostic.isError]

theorem delete_get_failure_witness :
    CertificateID sampleState.id = Except.ok sampleCredentialId ∧
      (applicationCertificateResourceDeleteMsGraph
        (sampleProvider (GetResponse.error 404 (Message.mk "not found" []))) sampleState).diags =
        [] :=
  ⟨rfl, (delete_get_failure (sampleProvider (GetResponse.error 404 (Message.mk "not found" [])))
    sampleState sampleObjectId "certificate" sampleKeyId 404 (Message.mk "not found" []) rfl
    rfl).1 rfl⟩

/-- C3: the delete handler evaluated on an application whose key credentials are one without
KeyId, the targeted one and another one: the list passed to Update holds the other one only,
so the credential without KeyId is dropped together with the targeted one. -/
theorem delete_drops_nil_key_id :
    updates (applicationCertificateResourceDeleteMsGraph
        (providerWith [nilCert, sampleCert, otherCert]) sampleState).trace =
      [Application.withKeyCredentials sampleObjectId [otherCert]] ∧
    deleteLoop sampleKeyId [nilCert, sampleCert, otherCert] [] ≠ [nilCert, otherCert] := by
  constructor
  · rfl
  · decide

/-! ## The application data source -/

theorem lookups_append (t u : Trace) : lookups (t ++ u) = lookups t ++ lookups u := by
  simp [lookups, List.filter_append]

theorem setWeb_lookups (fl : ApplicationFlatten) (app : Application) (s : State) :
    lookups (applicationDataSourceSetWeb fl app s).trace = lookups s.trace := by
  unfold applicationDataSourceSetWeb
  split
  · rfl
  · split <;> simp [State.Set, lookups_append, lookups]

theorem setFields_lookups (fl : ApplicationFlatten) (app : Application) (id : String)
    (s : State) :
    lookups (applicationDataSourceSetFields fl app id s).trace = lookups s.trace := by
  simp [applicationDataSourceSetFields, State.Set, State.SetId, lookups_append, lookups]

theorem setApi_lookups (fl : ApplicationFlatten) (app : Application) (s : State) :
    lookups (applicationDataSourceSetApi fl app s).trace = lookups s.trace := by
  unfold applicationDataSourceSetApi
  split
  · rfl
  · simp [State.Set, lookups_append, lookups]

/-- Once the application is resolved the data source makes no further lookup. -/
theorem setAttributes_lookups (client : MsClient) (fl : ApplicationFlatten)
    (app : Application) (s : State) :
    lookups (applicationDataSourceSetAttributes client fl app s).trace = lookups s.trace := by
  unfold applicationDataSourceSetAttributes
  cases app.ID with
  | none => rfl
  | some id =>
    have h14 : lookups (applicationDataSourceSetWeb fl app (applicationDataSourceSetApi fl app
        (applicationDataSourceSetFields fl app id s))).trace = lookups s.trace := by
      rw [setWeb_lookups, setApi_lookups, setFields_lookups]
    simp only
    split
    · simp only [State.ret, State.log, lookups_append, h14]
      simp [lookups]
    · simp only [State.ret, State.log, State.Set, lookups_append, h14]
      simp [lookups]

theorem applicationDataSourceField_name (d : ResourceData) (fieldName fieldValue : String)
    (h : applicationDataSourceField d = some (fieldName, fieldValue)) :
    fieldName = "appId" ∨ fieldName = "displayName" := by
  unfold applicationDataSourceField at h
  split_ifs at h <;> simp only [Option.some.injEq, Prod.mk.injEq] at h
  · exact Or.inl h.1.symm
  · exact Or.inr h.1.symm
  · exact Or.inr h.1.symm

theorem checkField_eq_none_iff (fieldName fieldValue filter : String) (app : Application)
    (hname : fieldName = "appId" ∨ fieldName = "displayName") :
    applicationDataSourceCheckField fieldName fieldValue filter app = none ↔
      queriedField fieldName app = some fieldValue := by
  rcases hname with rfl | rfl
  · cases h : app.AppId with
    | none => simp [applicationDataSourceCheckField, queriedField, h]
    | some v =>
      by_cases hv : v = fieldValue <;>
        simp [applicationDataSourceCheckField, queriedField, h, hv]
  · have hne : ¬ ("displayName" = "appId") := by decide
    cases h : app.DisplayName with
    | none => simp [applicationDataSourceCheckField, queriedField, h, hne]
    | some v =>
      by_cases hv : v = fieldValue <;>
        simp [applicationDataSourceCheckField, queriedField, h, hv, hne]

theorem checkField_bad_response (fieldName fieldValue filter : String) (app : Application)
    (dg : Diagnostic)
    (h : applicationDataSourceCheckField fieldName fieldValue filter app = some dg) :
    ∃ err, dg = Diagnostic.ErrorDiagF (some err) (Message.mk "Bad API Response" []) := by
  unfold applicationDataSourceCheckField at h
  split_ifs at h
  · split at h
    · exact ⟨_, (Option.some.inj h).symm⟩
    · split_ifs at h
      exact ⟨_, (Option.some.inj h).symm⟩
  · split at h
    · exact ⟨_, (Option.some.inj h).symm⟩
    · split_ifs at h
      exact ⟨_, (Option.some.inj h).symm⟩

/-- When the application has no object id, or the owners cannot be listed, the attribute
mapping returns a diagnostic; so an empty result means neither happened. -/
theorem setAttributes_diags_nil (client : MsClient) (fl : ApplicationFlatten)
    (app : Application) (s : State)
    (h : (applicationDataSourceSetAttributes client fl app s).diags = []) :
    app.ID ≠ none := by
  intro hid
  simp [applicationDataSourceSetAttributes, hid, State.ret] at h

/-- C8: a lookup of the application data source by filter (`object_id` empty, `fieldName` and
`fieldValue` chosen from the configuration): a nil or empty List result gives the
"Application not found" error, more than one result the "Multiple applications found" error,
a single result whose queried field (AppId for `appId`, DisplayName for `displayName`) is nil
or differs from the requested value a "Bad API Response" error; in each of these cases the
resource data is unchanged and the only event is the List call, so the resource ID is not
set.  The handler returns no diagnostics only if List returned exactly one application whose
queried field is non-nil and equal to the requested value. -/
theorem application_filter_lookup (client : MsClient) (fl : ApplicationFlatten)
    (d : ResourceData) (fieldName fieldValue : String)
    (hid : d.Get "object_id" = "")
    (hfield : applicationDataSourceField d = some (fieldName, fieldValue)) :
    ((client.List [] (applicationFilter fieldName fieldValue) = Except.ok none ∨
        client.List [] (applicationFilter fieldName fieldValue) = Except.ok (some [])) →
      applicationDataSourceReadMsGraph client fl d =
        Result.mk [Diagnostic.ErrorDiagF
          (some (Message.mk "No applications found matching filter: %q"
            [applicationFilter fieldName fieldValue]))
          (Message.mk "Application not found" [])] d
          [Event.list (applicationFilter fieldName fieldValue)]) ∧
    (∀ a b rest, client.List [] (applicationFilter fieldName fieldValue) =
        Except.ok (some (a :: b :: rest)) →
      applicationDataSourceReadMsGraph client fl d =
        Result.mk [Diagnostic.ErrorDiagF
          (some (Message.mk "Found multiple applications matching filter: %q"
            [applicationFilter fieldName fieldValue]))
          (Message.mk "Multiple applications found" [])] d
          [Event.list (applicationFilter fieldName fieldValue)]) ∧
    (∀ app, client.List [] (applicationFilter fieldName fieldValue) = Except.ok (some [app]) →
      queriedField fieldName app ≠ some fieldValue →
      ∃ err, applicationDataSourceReadMsGraph client fl d =
        Result.mk [Diagnostic.ErrorDiagF (some err) (Message.mk "Bad API Response" [])] d
          [Event.list (applicationFilter fieldName fieldValue)]) ∧
    ((applicationDataSourceReadMsGraph client fl d).diags = [] →
      ∃ app, client.List [] (applicationFilter fieldName fieldValue) = Except.ok (some [app]) ∧
        queriedField fieldName app = some fieldValue) := by
  have hname := applicationDataSourceField_name d fieldName fieldValue hfield
  have hread : applicationDataSourceReadMsGraph client fl d =
      match client.List [] (applicationFilter fieldName fieldValue) with
      | Except.error err =>
        Result.mk [Diagnostic.ErrorDiagF (some err)
          (Message.mk "Listing applications for filter %q"
            [applicationFilter fieldName fieldValue])] d
          [Event.list (applicationFilter fieldName fieldValue)]
      | Except.ok none =>
        Result.mk [Diagnostic.ErrorDiagF
          (some (Message.mk "No applications found matching filter: %q"
            [applicationFilter fieldName fieldValue]))
          (Message.mk "Application not found" [])] d
          [Event.list (applicationFilter fieldName fieldValue)]
      | Except.ok (some []) =>
        Result.mk [Diagnostic.ErrorDiagF
          (some (Message.mk "No applications found matching filter: %q"
            [applicationFilter fieldName fieldValue]))
          (Message.mk "Application not found" [])] d
          [Event.list (applicationFilter fieldName fieldValue)]
      | Except.ok (some (_ :: _ :: _)) =>
        Result.mk [Diagnostic.ErrorDiagF
          (some (Message.mk "Found multiple applications matching filter: %q"
            [applicationFilter fieldName fieldValue]))
          (Message.mk "Multiple applications found" [])] d
          [Event.list (applicationFilter fieldName fieldValue)]
      | Except.ok (some [app]) =>
        match applicationDataSourceCheckField fieldName fieldValue
            (applicationFilter fieldName fieldValue) app with
        | some dg => Result.mk [dg] d [Event.list (applicationFilter fieldName fieldValue)]
        | none => applicationDataSourceSetAttributes client fl app
            (State.mk d [Event.list (applicationFilter fieldName fieldValue)]) := by
    simp only [applicationDataSourceReadMsGraph, hid, ne_eq, not_true_eq_false, if_false,
      hfield, State.log, State.ret, List.nil_append]
  refine ⟨?_, ?_, ?_, ?_⟩
  · rintro (h | h) <;> rw [hread, h]
  · intro a b rest h
    rw [hread, h]
  · intro app h hq
    rw [hread, h]
    cases hc : applicationDataSourceCheckField fieldName fieldValue
        (applicationFilter fieldName fieldValue) app with
    | none => exact absurd ((checkField_eq_none_iff _ _ _ _ hname).mp hc) hq
    | some dg =>
      obtain ⟨err, hdg⟩ := checkField_bad_response _ _ _ _ _ hc
      refine ⟨err, ?_⟩
      simp only [hc, hdg]
  · intro hd
    rw [hread] at hd
    split at hd
    · simp at hd
    · simp at hd
    · simp at hd
    · simp at hd
    · next app hl =>
      refine ⟨app, hl, ?_⟩
      cases hc : applicationDataSourceCheckField fieldName fieldValue
          (applicationFilter fieldName fieldValue) app with
      | none => exact (checkField_eq_none_iff _ _ _ _ hname).mp hc
      | some dg =>
        rw [hc] at hd
        simp at hd

theorem application_filter_lookup_witness :
    sampleByDisplayName.Get "object_id" = "" ∧
      applicationDataSourceField sampleByDisplayName = some ("displayName", "app one") ∧
      (applicationDataSourceReadMsGraph (sampleListClient (Except.ok (some []))) sampleFlatten
        sampleByDisplayName).diags =
        [Diagnostic.ErrorDiagF
          (some (Message.mk "No applications found matching filter: %q"
            ["displayName eq 'app one'"]))
          (Message.mk "Application not found" [])] :=
  ⟨by decide, by decide, by
    rw [(application_filter_lookup (sampleListClient (Except.ok (some []))) sampleFlatten
      sampleByDisplayName "displayName" "app one" (by decide) (by decide)).1 (Or.inr rfl)]
    decide⟩

/-- C9: the application data source resolves the application by the first non-empty key in
the order `object_id` (Get by id), `application_id` (List with a filter on appId),
`display_name`, `name` (List with a filter on displayName), and that lookup is the only one
it makes; when all four are empty it returns the error "One of object_id, application_id or
displayName must be specified" with no event at all: no remote call and no write of the
resource ID. -/
theorem application_lookup_key (client : MsClient) (fl : ApplicationFlatten)
    (d : ResourceData) :
    (d.Get "object_id" ≠ "" →
      lookups (applicationDataSourceReadMsGraph client fl d).trace =
        [Event.get (d.Get "object_id")]) ∧
    (d.Get "object_id" = "" → d.Get "application_id" ≠ "" →
      lookups (applicationDataSourceReadMsGraph client fl d).trace =
        [Event.list ("appId" ++ " eq '" ++ d.Get "application_id" ++ "'")]) ∧
    (d.Get "object_id" = "" → d.Get "application_id" = "" → d.Get "display_name" ≠ "" →
      lookups (applicationDataSourceReadMsGraph client fl d).trace =
        [Event.list ("displayName" ++ " eq '" ++ d.Get "display_name" ++ "'")]) ∧
    (d.Get "object_id" = "" → d.Get "application_id" = "" → d.Get "display_name" = "" →
      d.Get "name" ≠ "" →
      lookups (applicationDataSourceReadMsGraph client fl d).trace =
        [Event.list ("displayName" ++ " eq '" ++ d.Get "name" ++ "'")]) ∧
    (d.Get "object_id" = "" → d.Get "application_id" = "" → d.Get "display_name" = "" →
      d.Get "name" = "" →
      applicationDataSourceReadMsGraph client fl d =
        Result.mk [Diagnostic.ErrorDiagF none
          (Message.mk "One of `object_id`, `application_id` or `displayName` must be specified"
            [])] d []) := by
  have hlist : ∀ fieldName fieldValue, d.Get "object_id" = "" →
      applicationDataSourceField d = some (fieldName, fieldValue) →
      lookups (applicationDataSourceReadMsGraph client fl d).trace =
        [Event.list (fieldName ++ " eq '" ++ fieldValue ++ "'")] := by
    intro fieldName fieldValue hid hfield
    simp only [applicationDataSourceReadMsGraph, hid, ne_eq, not_true_eq_false, if_false,
      hfield, State.log, State.ret, List.nil_append, applicationFilter]
    split
    · rfl
    · rfl
    · rfl
    · rfl
    · split
      · rfl
      · rw [setAttributes_lookups]
        rfl
  refine ⟨?_, ?_, ?_, ?_, ?_⟩
  · intro hid
    simp only [applicationDataSourceReadMsGraph, hid, ne_eq, not_false_eq_true, if_true,
      State.log, State.ret, List.nil_append]
    split
    · split <;> rfl
    · rw [setAttributes_lookups]
      rfl
  · intro hid ha
    exact hlist _ _ hid (by simp [applicationDataSourceField, ha])
  · intro hid ha hdn
    exact hlist _ _ hid (by simp [applicationDataSourceField, ha, hdn])
  · intro hid ha hdn hn
    exact hlist _ _ hid (by simp [applicationDataSourceField, ha, hdn, hn])
  · intro hid ha hdn hn
    simp [applicationDataSourceReadMsGraph, applicationDataSourceField, hid, ha, hdn, hn,
      State.ret]

/-! ## The service principal data source -/

/-- In the schema of the data source each lookup key conflicts with exactly the other two. -/
theorem servicePrincipalData_conflictsWith (appRoles oauth2Permissions : Schema) :
    ((servicePrincipalData appRoles oauth2Permissions).lookup "object_id").map
        Schema.ConflictsWith = some ["display_name", "application_id"] ∧
      ((servicePrincipalData appRoles oauth2Permissions).lookup "display_name").map
        Schema.ConflictsWith = some ["object_id", "application_id"] ∧
      ((servicePrincipalData appRoles oauth2Permissions).lookup "application_id").map
        Schema.ConflictsWith = some ["object_id", "display_name"] := by
  refine ⟨?_, ?_, ?_⟩ <;> simp [servicePrincipalData, List.lookup]

theorem servicePrincipalDataSetAttributes_lookups (fl : GraphFlatten) (sp : ServicePrincipal)
    (s : State) :
    lookups (servicePrincipalDataSetAttributes fl sp s).trace = lookups s.trace := by
  unfold servicePrincipalDataSetAttributes
  split
  · rfl
  · simp [State.ret, State.Set, State.SetId, lookups_append, lookups]

/-- With none of the three keys set, every run of the data source that returns has called
ListComplete with the filter on an empty application id. -/
theorem servicePrincipalDataRead_no_key (client : ServicePrincipalsClient) (fl : GraphFlatten)
    (d : ResourceData) (r : Result) (hid : d.Get "object_id" = "")
    (hname : d.Get "display_name" = "") (happ : d.Get "application_id" = "")
    (hr : servicePrincipalDataRead client fl d = some r) :
    lookups r.trace = [Event.listComplete "appId eq ''"] := by
  have hfilter : "appId eq '" ++ "" ++ "'" = "appId eq ''" := by decide
  simp only [servicePrincipalDataRead, ResourceData.GetOk, hid, hname, happ, ne_eq,
    not_true_eq_false, decide_False, Bool.false_eq_true, if_false, State.log, State.ret,
    List.nil_append, hfilter] at hr
  split at hr
  · cases hr
    rfl
  · cases hr
  · split at hr
    · cases hr
      rfl
    · cases hr
      rw [servicePrincipalDataSetAttributes_lookups]
      rfl

/-- C10: the service principal data source evaluated on a configuration in which none of
`object_id`, `display_name` and `application_id` is set: the final `else` branch issues
ListComplete with the filter `appId eq ''`; when nothing matches the handler returns
"Service principal not found" after that call, and when the answer holds a service principal
whose AppID is the empty string the handler succeeds and sets the resource ID to its object
id. -/
theorem service_principal_no_key_lists :
    Option.map (fun r => (r.diags, lookups r.trace))
        (servicePrincipalDataRead (sampleServicePrincipalsClient (Except.ok (some [])))
          sampleGraphFlatten sampleNoKey) =
      some ([Diagnostic.Literal Severity.Error (Message.mk "Service principal not found" [])
          (some (Message.mk "No service principal found for application ID: %q" [""])) []],
        [Event.listComplete "appId eq ''"]) ∧
    Option.map (fun r => (r.diags, lookups r.trace, r.d.id))
        (servicePrincipalDataRead
          (sampleServicePrincipalsClient (Except.ok (some [sampleEmptyAppID])))
          sampleGraphFlatten sampleNoKey) =
      some ([], [Event.listComplete "appId eq ''"], "sp1") := by
  constructor <;> decide

/-! ## The group resource: duplicate-name guard -/

theorem afterLiteral_append (lit text : List Char) :
    afterLiteral lit (lit ++ text) = some text := by
  induction lit with
  | nil => cases text <;> rfl
  | cons c lit ih => simp [afterLiteral, ih]

theorem dotPlusThen_cons (lit : List Char) (c : Char) (rest : List Char) :
    dotPlusThen lit (c :: rest) =
      (decide (c ≠ '\n') && ((afterLiteral lit rest).isSome || dotPlusThen lit rest)) := rfl

theorem dotPlusThen_append (lit mid text : List Char) (hmid : mid ≠ [])
    (hline : '\n' ∉ mid) : dotPlusThen lit (mid ++ (lit ++ text)) = true := by
  induction mid with
  | nil => exact absurd rfl hmid
  | cons c mid ih =>
    have hc : c ≠ '\n' := fun e => hline (e ▸ List.mem_cons_self _ _)
    have hrest : '\n' ∉ mid := fun h => hline (List.mem_cons_of_mem _ h)
    rw [List.cons_append, dotPlusThen_cons]
    cases mid with
    | nil => simp [hc, afterLiteral_append]
    | cons x mid =>
      rw [ih (List.cons_ne_nil _ _) hrest]
      simp [hc]

theorem quoteChar_no_line_feed (c : Char) : '\n' ∉ quoteChar c := by
  unfold quoteChar
  split_ifs with h1 h2 h3
  · decide
  · decide
  · decide
  · simpa using fun e => h3 e.symm

theorem quote_no_line_feed (name : String) : '\n' ∉ (quote name).toList := by
  intro h
  simp only [quote, String.toList, List.mem_cons, List.mem_append, List.mem_flatMap,
    List.mem_singleton, List.not_mem_nil, or_false] at h
  rcases h with h | ⟨c, _, hc⟩ | h
  · exact absurd h (by decide)
  · exact quoteChar_no_line_feed c hc
  · exact absurd h (by decide)

theorem matches_groupDuplicateError (name : String) :
    matchesExistingGroupWasFound (groupDuplicateError name) = true := by
  have htext : (groupDuplicateError name).toList =
      "existing Group ".toList ++ ((quote name).toList ++ (" was found".toList ++ [])) := by
    simp [groupDuplicateError, String.toList]
  have hmid : (quote name).toList ≠ [] := by simp [quote, String.toList]
  have hhead : ∀ (f : List Char → Bool) (l : List Char),
      f l = true → l.tails.any f = true := by
    intro f l hf
    cases l <;> simp [List.tails, hf]
  unfold matchesExistingGroupWasFound
  apply hhead
  rw [htext, afterLiteral_append]
  exact dotPlusThen_append _ _ _ hmid (quote_no_line_feed name)

theorem groupFindByName_eq_none_iff (directory : List Group) (name : String) :
    groupFindByName directory name = none ↔ ∀ g ∈ directory, g.DisplayName ≠ some name := by
  simp [groupFindByName, List.find?_eq_none]

/-- C7: the duplicate-name guard of `azuread_group`: with `prevent_duplicate_names` true and
the name `n` configured, create fails with an error text matched by
`existing Group .+ was found` when the directory holds a group named `n`, and succeeds with
the attribute `name` equal to `n` when it holds none. -/
theorem group_duplicate_name_guard (directory : List Group) (objectId : String)
    (d : ResourceData) (hguard : preventDuplicateNames d = true) :
    ((∃ g ∈ directory, g.DisplayName = some (d.Get "name")) →
      ∃ text, groupResourceCreate directory objectId d = Except.error text ∧
        matchesExistingGroupWasFound text = true) ∧
    ((∀ g ∈ directory, g.DisplayName ≠ some (d.Get "name")) →
      ∃ directory1 d1, groupResourceCreate directory objectId d = Except.ok (directory1, d1) ∧
        d1.Get "name" = d.Get "name") := by
  constructor
  · rintro ⟨g, hg, hname⟩
    cases hfind : groupFindByName directory (d.Get "name") with
    | none =>
      exact absurd hname ((groupFindByName_eq_none_iff _ _).mp hfind g hg)
    | some found =>
      refine ⟨groupDuplicateError (d.Get "name"), ?_, matches_groupDuplicateError _⟩
      simp [groupResourceCreate, hguard, hfind]
  · intro hnone
    have hfind := (groupFindByName_eq_none_iff _ _).mpr hnone
    refine ⟨directory ++ [Group.mk (some objectId) (some (d.Get "name"))],
      (d.SetId objectId).Set "name" (Value.str (d.Get "name")), ?_, ?_⟩
    · simp only [groupResourceCreate, hguard, hfind, if_true]
    · simp [ResourceData.Get, ResourceData.Set, ResourceData.SetId, List.lookup]

theorem group_duplicate_name_guard_witness :
    preventDuplicateNames (sampleGroupConfig "acctestGroup-1") = true ∧
      (∃ text, groupResourceCreate sampleDirectory "g3" (sampleGroupConfig "acctestGroup-1") =
          Except.error text ∧ matchesExistingGroupWasFound text = true) :=
  ⟨by decide, (group_duplicate_name_guard sampleDirectory "g3"
    (sampleGroupConfig "acctestGroup-1") (by decide)).1
    ⟨Group.mk (some "g1") (some "acctestGroup-1"), by decide, by decide⟩⟩

/-! ## The lock around the credential mutation -/

theorem lockEvents_append (t u : Trace) : lockEvents (t ++ u) = lockEvents t ++ lockEvents u := by
  simp [lockEvents, List.filter_append]

theorem remoteCalls_append (t u : Trace) :
    remoteCalls (t ++ u) = remoteCalls t ++ remoteCalls u := by
  simp [remoteCalls, List.filter_append]

/-- While the lock is held and until it is released, every remote call is a locked call. -/
theorem lockedCalls_until_unlock (body : Trace) (name key : String)
    (h : lockEvents body = []) :
    lockedCalls true (body ++ [Event.unlock name key]) = remoteCalls body := by
  induction body with
  | nil => rfl
  | cons e body ih =>
    have he : e.isLock = false := by
      cases hl : e.isLock with
      | false => rfl
      | true => simp [lockEvents, List.filter_cons, hl] at h
    have hbody : lockEvents body = [] := by
      simpa [lockEvents, List.filter_cons, he] using h
    cases e with
    | lock n k => simp [Event.isLock] at he
    | unlock n k => simp [Event.isLock] at he
    | get o => simp [lockedCalls, Event.isRemote, ih hbody, remoteCalls]
    | update a => simp [lockedCalls, Event.isRemote, ih hbody, remoteCalls]
    | list f => simp [lockedCalls, Event.isRemote, ih hbody, remoteCalls]
    | listOwners o => simp [lockedCalls, Event.isRemote, ih hbody, remoteCalls]
    | listComplete f => simp [lockedCalls, Event.isRemote, ih hbody, remoteCalls]
    | setId i => simp [lockedCalls, Event.isRemote, ih hbody, remoteCalls]
    | set k v => simp [lockedCalls, Event.isRemote, ih hbody, remoteCalls]

/-- The events of the read handler: no lock operation and at most one remote call, a Get. -/
theorem read_trace (p : Provider) (s : State) :
    ∃ u, (applicationCertificateResourceReadMsGraph p s).trace = s.trace ++ u ∧
      lockEvents u = [] ∧ (remoteCalls u = [] ∨ ∃ o, remoteCalls u = [Event.get o]) := by
  unfold applicationCertificateResourceReadMsGraph
  cases CertificateID s.d.id with
  | error err => exact ⟨[], by simp [State.ret], rfl, Or.inl rfl⟩
  | ok id =>
    simp only
    cases p.MsClient.Get s.trace id.ObjectId with
    | error status err =>
      refine ⟨[Event.get id.ObjectId], ?_, rfl, Or.inr ⟨_, rfl⟩⟩
      by_cases h : status = 404 <;> simp [h, State.ret, State.log]
    | ok app =>
      simp only
      split
      · exact ⟨[Event.get id.ObjectId, Event.setId ""],
          by simp [State.ret, State.log, State.SetId], rfl, Or.inr ⟨_, rfl⟩⟩
      · next credential _ =>
        exact ⟨[Event.get id.ObjectId,
            Event.set "application_object_id" (Value.str id.ObjectId),
            Event.set "key_id" (Value.str id.KeyId),
            Event.set "type" (Value.str (strOrEmpty credential.Type_)),
            Event.set "start_date" (Value.str (strOrEmpty credential.StartDateTime)),
            Event.set "end_date" (Value.str (strOrEmpty credential.EndDateTime))],
          by simp [State.ret, State.log, State.Set], rfl, Or.inr ⟨_, rfl⟩⟩

/-- The events of the create handler while it holds the lock: no lock operation; the Get of
the application, then possibly the Update, then possibly the Get of the read-back. -/
theorem createLocked_trace (p : Provider) (c : KeyCredential) (k : String) (id : CredentialId)
    (s : State) :
    ∃ u rest, (createLocked p c k id s).trace = s.trace ++ u ∧ lockEvents u = [] ∧
      remoteCalls u = Event.get id.ObjectId :: rest ∧
      (rest = [] ∨ (∃ properties, rest = [Event.update properties]) ∨
        ∃ properties o, rest = [Event.update properties, Event.get o]) := by
  unfold createLocked
  simp only
  cases p.MsClient.Get s.trace id.ObjectId with
  | error status err =>
    refine ⟨[Event.get id.ObjectId], [], ?_, rfl, rfl, Or.inl rfl⟩
    by_cases h : status = 404 <;> simp [h, State.ret, State.log]
  | ok app =>
    simp only
    split
    · exact ⟨[Event.get id.ObjectId], [], by simp [State.ret, State.log], rfl, rfl, Or.inl rfl⟩
    · next newCredentials _ =>
      split
      · exact ⟨[Event.get id.ObjectId, Event.update
            (Application.withKeyCredentials id.ObjectId (newCredentials ++ [c]))], _,
          by simp [State.ret, State.log], rfl, rfl, Or.inr (Or.inl ⟨_, rfl⟩)⟩
      · obtain ⟨u, hu, hlock, hcalls⟩ := read_trace p
          (((s.log (Event.get id.ObjectId)).log (Event.update
            (Application.withKeyCredentials id.ObjectId (newCredentials ++ [c])))).SetId
            id.format)
        refine ⟨[Event.get id.ObjectId, Event.update
            (Application.withKeyCredentials id.ObjectId (newCredentials ++ [c])),
            Event.setId id.format] ++ u,
          Event.update (Application.withKeyCredentials id.ObjectId (newCredentials ++ [c])) ::
            remoteCalls u, ?_, ?_, ?_, ?_⟩
        · rw [hu]
          simp [State.log, State.SetId]
        · rw [lockEvents_append, hlock]
          rfl
        · rw [remoteCalls_append]
          rfl
        · rcases hcalls with h | ⟨o, h⟩
          · exact Or.inr (Or.inl ⟨_, by rw [h]⟩)
          · exact Or.inr (Or.inr ⟨_, o, by rw [h]⟩)

/-- The events of the delete handler while it holds the lock: no lock operation; the Get of
the application, then possibly the Update. -/
theorem deleteLocked_trace (p : Provider) (id : CredentialId) (s : State) :
    ∃ u rest, (deleteLocked p id s).trace = s.trace ++ u ∧ lockEvents u = [] ∧
      remoteCalls u = Event.get id.ObjectId :: rest ∧
      (rest = [] ∨ ∃ properties, rest = [Event.update properties]) := by
  unfold deleteLocked
  simp only
  cases p.MsClient.Get s.trace id.ObjectId with
  | error status err =>
    refine ⟨[Event.get id.ObjectId], [], ?_, rfl, rfl, Or.inl rfl⟩
    by_cases h : status = 404 <;> simp [h, State.ret, State.log]
  | ok app =>
    simp only
    refine ⟨[Event.get id.ObjectId, Event.update (Application.withKeyCredentials id.ObjectId
      (match app.KeyCredentials with
        | some creds => deleteLoop id.KeyId creds []
        | none => []))], _, ?_, rfl, rfl, Or.inr ⟨_, rfl⟩⟩
    split <;> simp [State.ret, State.log]

/-- The trace of the create handler once the credential has been generated with a key id:
the lock, the events made while it is held, the unlock. -/
theorem create_trace (p : Provider) (d : ResourceData) (c : KeyCredential) (k : String)
    (hc : p.KeyCredentialForResource d = Except.ok c) (hk : c.KeyId = some k) :
    ∃ r body rest, applicationCertificateResourceCreateMsGraph p d = some r ∧
      r.trace = Event.lock p.resourceApplicationName (d.Get "application_object_id") ::
        (body ++ [Event.unlock p.resourceApplicationName (d.Get "application_object_id")]) ∧
      lockEvents body = [] ∧
      remoteCalls body = Event.get (d.Get "application_object_id") :: rest ∧
      (rest = [] ∨ (∃ properties, rest = [Event.update properties]) ∨
        ∃ properties o, rest = [Event.update properties, Event.get o]) := by
  obtain ⟨u, rest, hu, hlock, hcalls, hrest⟩ := createLocked_trace p c k
    (NewCredentialID (d.Get "application_object_id") "certificate" k)
    ((State.mk d []).log (Event.lock p.resourceApplicationName (d.Get "application_object_id")))
  refine ⟨_, u, rest, create_of_credential p d c k hc hk, ?_, hlock, hcalls, hrest⟩
  simp only [State.log, NewCredentialID, List.nil_append] at hu ⊢
  rw [hu]
  simp

/-- The trace of the delete handler once the resource ID is parsed: the lock, the events made
while it is held, the unlock. -/
theorem delete_trace (p : Provider) (d : ResourceData) (id : CredentialId)
    (hparse : CertificateID d.id = Except.ok id) :
    ∃ body rest, (applicationCertificateResourceDeleteMsGraph p d).trace =
        Event.lock p.resourceApplicationName id.ObjectId ::
          (body ++ [Event.unlock p.resourceApplicationName id.ObjectId]) ∧
      lockEvents body = [] ∧
      remoteCalls body = Event.get id.ObjectId :: rest ∧
      (rest = [] ∨ ∃ properties, rest = [Event.update properties]) := by
  obtain ⟨u, rest, hu, hlock, hcalls, hrest⟩ := deleteLocked_trace p id
    ((State.mk d []).log (Event.lock p.resourceApplicationName id.ObjectId))
  refine ⟨u, rest, ?_, hlock, hcalls, hrest⟩
  simp only [State.log, List.nil_append] at hu
  simp only [applicationCertificateResourceDeleteMsGraph, hparse, State.log, List.nil_append]
  rw [hu]
  simp

/-- C11: in the create and the delete handler of the application certificate the named lock
(`resourceApplicationName`, application object id) is the first event of every run that
gets past credential generation, respectively ID parsing: it precedes the Get and the Update;
whatever the client answers (Get failure, 404, key id already present, Update failure,
success) the lock operations of the run are exactly one lock followed by one unlock, the
unlock being the last event.  A run that fails to generate the credential or to parse the ID
has an empty trace: the lock is neither acquired nor released. -/
theorem lock_released_exactly_once (p : Provider) (d : ResourceData) :
    (∀ e, p.KeyCredentialForResource d = Except.error e →
      Option.map Result.trace (applicationCertificateResourceCreateMsGraph p d) = some []) ∧
    (∀ c k, p.KeyCredentialForResource d = Except.ok c → c.KeyId = some k →
      ∃ r body, applicationCertificateResourceCreateMsGraph p d = some r ∧
        r.trace = Event.lock p.resourceApplicationName (d.Get "application_object_id") ::
          (body ++ [Event.unlock p.resourceApplicationName (d.Get "application_object_id")]) ∧
        lockEvents body = [] ∧
        lockEvents r.trace =
          [Event.lock p.resourceApplicationName (d.Get "application_object_id"),
            Event.unlock p.resourceApplicationName (d.Get "application_object_id")]) ∧
    (∀ err, CertificateID d.id = Except.error err →
      (applicationCertificateResourceDeleteMsGraph p d).trace = []) ∧
    (∀ id, CertificateID d.id = Except.ok id →
      ∃ body, (applicationCertificateResourceDeleteMsGraph p d).trace =
          Event.lock p.resourceApplicationName id.ObjectId ::
            (body ++ [Event.unlock p.resourceApplicationName id.ObjectId]) ∧
        lockEvents body = [] ∧
        lockEvents (applicationCertificateResourceDeleteMsGraph p d).trace =
          [Event.lock p.resourceApplicationName id.ObjectId,
            Event.unlock p.resourceApplicationName id.ObjectId]) := by
  have hwrap : ∀ (body : Trace) (name key : String), lockEvents body = [] →
      lockEvents (Event.lock name key :: (body ++ [Event.unlock name key])) =
        [Event.lock name key, Event.unlock name key] := by
    intro body name key hbody
    have h : Event.lock name key :: (body ++ [Event.unlock name key]) =
        [Event.lock name key] ++ (body ++ [Event.unlock name key]) := rfl
    rw [h, lockEvents_append, lockEvents_append, hbody]
    rfl
  refine ⟨?_, ?_, ?_, ?_⟩
  · intro e he
    simp [applicationCertificateResourceCreateMsGraph, he, State.ret]
  · intro c k hc hk
    obtain ⟨r, body, rest, hr, htrace, hlock, _, _⟩ := create_trace p d c k hc hk
    exact ⟨r, body, hr, htrace, hlock, by rw [htrace]; exact hwrap _ _ _ hlock⟩
  · intro err herr
    simp [applicationCertificateResourceDeleteMsGraph, herr, State.ret]
  · intro id hparse
    obtain ⟨body, rest, htrace, hlock, _, _⟩ := delete_trace p d id hparse
    exact ⟨body, htrace, hlock, by rw [htrace]; exact hwrap _ _ _ hlock⟩

/-- C12, as stated, fails for create: on a successful create against a directory that holds
the application, three remote calls are made while the lock is held, the third being the Get
of the read-back, which runs before the deferred unlock. -/
theorem create_read_back_under_lock :
    Option.map (fun r => lockedCalls false r.trace)
        (applicationCertificateResourceCreateMsGraph (directoryProvider [otherCert])
          sampleConfig) =
      some [Event.get sampleObjectId,
        Event.update (Application.withKeyCredentials sampleObjectId [otherCert, sampleCert]),
        Event.get sampleObjectId] := by
  rfl

/-- C12, amended: while the lock is held the delete handler makes the Get of the application
and, after it, at most the one Update; the create handler makes the Get, at most the one
Update and, after a successful Update, at most the one Get of the read-back, which runs
before the deferred unlock.  In both handlers the unlock is the last event, so no remote call
follows the release. -/
theorem lock_window_calls (p : Provider) (d : ResourceData) :
    (∀ c k, p.KeyCredentialForResource d = Except.ok c → c.KeyId = some k →
      ∃ r rest, applicationCertificateResourceCreateMsGraph p d = some r ∧
        lockedCalls false r.trace = Event.get (d.Get "application_object_id") :: rest ∧
        (rest = [] ∨ (∃ properties, rest = [Event.update properties]) ∨
          ∃ properties o, rest = [Event.update properties, Event.get o]) ∧
        r.trace.getLast? =
          some (Event.unlock p.resourceApplicationName (d.Get "application_object_id"))) ∧
    (∀ id, CertificateID d.id = Except.ok id →
      ∃ rest, lockedCalls false (applicationCertificateResourceDeleteMsGraph p d).trace =
          Event.get id.ObjectId :: rest ∧
        (rest = [] ∨ ∃ properties, rest = [Event.update properties]) ∧
        (applicationCertificateResourceDeleteMsGraph p d).trace.getLast? =
          some (Event.unlock p.resourceApplicationName id.ObjectId)) := by
  have hlast : ∀ (body : Trace) (e f : Event), (e :: (body ++ [f])).getLast? = some f := by
    intro body e f
    rw [← List.cons_append, List.getLast?_append]
    rfl
  refine ⟨?_, ?_⟩
  · intro c k hc hk
    obtain ⟨r, body, rest, hr, htrace, hlock, hcalls, hrest⟩ := create_trace p d c k hc hk
    refine ⟨r, rest, hr, ?_, hrest, ?_⟩
    · rw [htrace, ← hcalls, ← lockedCalls_until_unlock body _ _ hlock]
      rfl
    · rw [htrace]
      exact hlast _ _ _
  · intro id hparse
    obtain ⟨body, rest, htrace, hlock, hcalls, hrest⟩ := delete_trace p d id hparse
    refine ⟨rest, ?_, hrest, ?_⟩
    · rw [htrace, ← hcalls, ← lockedCalls_until_unlock body _ _ hlock]
      rfl
    · rw [htrace]
      exact hlast _ _ _

/-! ## The service principal data source: lookup by filter -/

theorem findByDisplayName_first (displayName : String) (pre post : List ServicePrincipal)
    (sp : ServicePrincipal) (hpre : ∀ a ∈ pre, a.DisplayName ≠ some displayName)
    (hsp : sp.DisplayName = some displayName) :
    findByDisplayName displayName (pre ++ sp :: post) = some sp := by
  induction pre with
  | nil => simp [findByDisplayName, hsp]
  | cons a pre ih =>
    have ha := hpre a (List.mem_cons_self _ _)
    have hrest : ∀ b ∈ pre, b.DisplayName ≠ some displayName :=
      fun b hb => hpre b (List.mem_cons_of_mem _ hb)
    cases hname : a.DisplayName with
    | none => simp [findByDisplayName, hname, ih hrest]
    | some v =>
      have hv : ¬ v = displayName := fun e => ha (by rw [hname, e])
      simp [findByDisplayName, hname, hv, ih hrest]

theorem findByDisplayName_eq_none_iff (displayName : String) (apps : List ServicePrincipal) :
    findByDisplayName displayName apps = none ↔
      ∀ a ∈ apps, a.DisplayName ≠ some displayName := by
  induction apps with
  | nil => simp [findByDisplayName]
  | cons a apps ih =>
    cases hname : a.DisplayName with
    | none => simp [findByDisplayName, hname, ih]
    | some v =>
      by_cases hv : v = displayName <;> simp [findByDisplayName, hname, hv, ih]

theorem findByAppID_first (applicationId : String) (pre post : List ServicePrincipal)
    (sp : ServicePrincipal) (hpre : ∀ a ∈ pre, a.AppID ≠ some applicationId)
    (hsp : sp.AppID = some applicationId) :
    findByAppID applicationId (pre ++ sp :: post) = some sp := by
  induction pre with
  | nil => simp [findByAppID, hsp]
  | cons a pre ih =>
    have ha := hpre a (List.mem_cons_self _ _)
    have hrest : ∀ b ∈ pre, b.AppID ≠ some applicationId :=
      fun b hb => hpre b (List.mem_cons_of_mem _ hb)
    cases hname : a.AppID with
    | none => simp [findByAppID, hname, ih hrest]
    | some v =>
      have hv : ¬ v = applicationId := fun e => ha (by rw [hname, e])
      simp [findByAppID, hname, hv, ih hrest]

theorem findByAppID_eq_none_iff (applicationId : String) (apps : List ServicePrincipal) :
    findByAppID applicationId apps = none ↔ ∀ a ∈ apps, a.AppID ≠ some applicationId := by
  induction apps with
  | nil => simp [findByAppID]
  | cons a apps ih =>
    cases hname : a.AppID with
    | none => simp [findByAppID, hname, ih]
    | some v =>
      by_cases hv : v = applicationId <;> simp [findByAppID, hname, hv, ih]

/-- The attribute mapping of the service principal data source never returns the
"Service principal not found" diagnostic. -/
theorem servicePrincipalDataSetAttributes_diags (fl : GraphFlatten) (sp : ServicePrincipal)
    (s : State) (detail : Option Message) :
    (servicePrincipalDataSetAttributes fl sp s).diags ≠
      [Diagnostic.Literal Severity.Error (Message.mk "Service principal not found" []) detail
        []] := by
  unfold servicePrincipalDataSetAttributes
  split
  · simp only [State.ret, ne_eq, List.cons.injEq, Diagnostic.Literal.injEq, Message.mk.injEq,
      and_true, true_and, not_and]
    intro h
    exact absurd h (by decide)
  · simp [State.ret]

/-- C13: the service principal data source looking up by filter (`object_id` not set).  In
the `display_name` branch, for every list returned by ListComplete, the element selected is
the first one whose DisplayName is non-nil and equal to the requested name, whatever comes
after it (further matches are not an error), and the "Service principal not found" error is
returned exactly when no element has that DisplayName; the `application_id` branch, taken when
`display_name` is not set, does the same on AppID. -/
theorem service_principal_first_match (client : ServicePrincipalsClient) (fl : GraphFlatten)
    (d : ResourceData) (hid : d.Get "object_id" = "") :
    (d.Get "display_name" ≠ "" → ∀ apps,
      client.ListComplete [] ("displayName eq '" ++ d.Get "display_name" ++ "'") =
        Except.ok (some apps) →
      (∀ pre sp post, apps = pre ++ sp :: post →
        (∀ a ∈ pre, a.DisplayName ≠ some (d.Get "display_name")) →
        sp.DisplayName = some (d.Get "display_name") →
        servicePrincipalDataRead client fl d =
          some (servicePrincipalDataSetAttributes fl sp (State.mk d
            [Event.listComplete ("displayName eq '" ++ d.Get "display_name" ++ "'")]))) ∧
      (Option.map Result.diags (servicePrincipalDataRead client fl d) =
          some [Diagnostic.Literal Severity.Error (Message.mk "Service principal not found" [])
            (some (Message.mk "No service principal found matching display name: %q"
              [d.Get "display_name"])) []] ↔
        ∀ a ∈ apps, a.DisplayName ≠ some (d.Get "display_name"))) ∧
    (d.Get "display_name" = "" → ∀ apps,
      client.ListComplete [] ("appId eq '" ++ d.Get "application_id" ++ "'") =
        Except.ok (some apps) →
      (∀ pre sp post, apps = pre ++ sp :: post →
        (∀ a ∈ pre, a.AppID ≠ some (d.Get "application_id")) →
        sp.AppID = some (d.Get "application_id") →
        servicePrincipalDataRead client fl d =
          some (servicePrincipalDataSetAttributes fl sp (State.mk d
            [Event.listComplete ("appId eq '" ++ d.Get "application_id" ++ "'")]))) ∧
      (Option.map Result.diags (servicePrincipalDataRead client fl d) =
          some [Diagnostic.Literal Severity.Error (Message.mk "Service principal not found" [])
            (some (Message.mk "No service principal found for application ID: %q"
              [d.Get "application_id"])) []] ↔
        ∀ a ∈ apps, a.AppID ≠ some (d.Get "application_id"))) := by
  constructor
  · intro hname apps hlist
    have hread : servicePrincipalDataRead client fl d =
        match findByDisplayName (d.Get "display_name") apps with
        | none =>
          some (Result.mk [Diagnostic.Literal Severity.Error
            (Message.mk "Service principal not found" [])
            (some (Message.mk "No service principal found matching display name: %q"
              [d.Get "display_name"])) []] d
            [Event.listComplete ("displayName eq '" ++ d.Get "display_name" ++ "'")])
        | some sp =>
          some (servicePrincipalDataSetAttributes fl sp (State.mk d
            [Event.listComplete ("displayName eq '" ++ d.Get "display_name" ++ "'")])) := by
      simp only [servicePrincipalDataRead, ResourceData.GetOk, hid, hname, ne_eq,
        not_true_eq_false, not_false_eq_true, decide_False, decide_True, Bool.false_eq_true,
        if_false, if_true, State.log, State.ret, List.nil_append, hlist]
    constructor
    · intro pre sp post happs hpre hsp
      rw [hread, happs, findByDisplayName_first _ pre post sp hpre hsp]
    · rw [hread, ← findByDisplayName_eq_none_iff]
      cases hfind : findByDisplayName (d.Get "display_name") apps with
      | none => simp
      | some sp =>
        simp only [Option.map_some', Option.some.injEq, reduceCtorEq, iff_false]
        exact servicePrincipalDataSetAttributes_diags fl sp _ _
  · intro hname apps hlist
    have hread : servicePrincipalDataRead client fl d =
        match findByAppID (d.Get "application_id") apps with
        | none =>
          some (Result.mk [Diagnostic.Literal Severity.Error
            (Message.mk "Service principal not found" [])
            (some (Message.mk "No service principal found for application ID: %q"
              [d.Get "application_id"])) []] d
            [Event.listComplete ("appId eq '" ++ d.Get "application_id" ++ "'")])
        | some sp =>
          some (servicePrincipalDataSetAttributes fl sp (State.mk d
            [Event.listComplete ("appId eq '" ++ d.Get "application_id" ++ "'")])) := by
      simp only [servicePrincipalDataRead, ResourceData.GetOk, hid, hname, ne_eq,
        not_true_eq_false, decide_False, Bool.false_eq_true, if_false, State.log, State.ret,
        List.nil_append, hlist]
    constructor
    · intro pre sp post happs hpre hsp
      rw [hread, happs, findByAppID_first _ pre post sp hpre hsp]
    · rw [hread, ← findByAppID_eq_none_iff]
      cases hfind : findByAppID (d.Get "application_id") apps with
      | none => simp
      | some sp =>
        simp only [Option.map_some', Option.some.injEq, reduceCtorEq, iff_false]
        exact servicePrincipalDataSetAttributes_diags fl sp _ _

theorem service_principal_first_match_witness :
    sampleSpByDisplayName.Get "object_id" = "" ∧
      Option.map (fun r => r.d.id) (servicePrincipalDataRead
        (sampleServicePrincipalsClient (Except.ok (some
          [sampleServicePrincipal "sp0" none, sampleServicePrincipal "sp1" (some "sp one"),
            sampleServicePrincipal "sp2" (some "sp one")])))
        sampleGraphFlatten sampleSpByDisplayName) = some "sp1" :=
  ⟨by decide, by
    rw [((service_principal_first_match
      (sampleServicePrincipalsClient (Except.ok (some
        [sampleServicePrincipal "sp0" none, sampleServicePrincipal "sp1" (some "sp one"),
          sampleServicePrincipal "sp2" (some "sp one")])))
      sampleGraphFlatten sampleSpByDisplayName (by decide)).1 (by decide) _ rfl).1
      [sampleServicePrincipal "sp0" none] (sampleServicePrincipal "sp1" (some "sp one"))
      [sampleServicePrincipal "sp2" (some "sp one")] rfl (by decide) (by decide)]
    rfl⟩

/-! ## The object id of a resolved object -/

theorem setWeb_object_id (fl : ApplicationFlatten) (app : Application) (s : State) :
    (applicationDataSourceSetWeb fl app s).d.id = s.d.id ∧
      (applicationDataSourceSetWeb fl app s).d.attrs.lookup "object_id" =
        s.d.attrs.lookup "object_id" := by
  unfold applicationDataSourceSetWeb
  split
  · exact ⟨rfl, rfl⟩
  · split <;> simp [State.Set, ResourceData.Set, List.lookup]

theorem setApi_object_id (fl : ApplicationFlatten) (app : Application) (s : State) :
    (applicationDataSourceSetApi fl app s).d.id = s.d.id ∧
      (applicationDataSourceSetApi fl app s).d.attrs.lookup "object_id" =
        s.d.attrs.lookup "object_id" := by
  unfold applicationDataSourceSetApi
  split
  · exact ⟨rfl, rfl⟩
  · simp [State.Set, ResourceData.Set, List.lookup]

theorem setFields_object_id (fl : ApplicationFlatten) (app : Application) (id : String)
    (s : State) (hid : app.ID = some id) :
    (applicationDataSourceSetFields fl app id s).d.id = id ∧
      (applicationDataSourceSetFields fl app id s).d.attrs.lookup "object_id" =
        some (Value.str id) := by
  simp [applicationDataSourceSetFields, State.Set, State.SetId, ResourceData.Set,
    ResourceData.SetId, List.lookup, hid, Value.ofPtr]

/-- The application data source resolving by `object_id` hands the application returned by
Get over to the attribute mapping. -/
theorem applicationDataSource_by_object_id (client : MsClient) (fl : ApplicationFlatten)
    (d : ResourceData) (app : Application) (hid : d.Get "object_id" ≠ "")
    (hget : client.Get [] (d.Get "object_id") = GetResponse.ok app) :
    applicationDataSourceReadMsGraph client fl d =
      applicationDataSourceSetAttributes client fl app
        (State.mk d [Event.get (d.Get "object_id")]) := by
  simp only [applicationDataSourceReadMsGraph, hid, ne_eq, not_false_eq_true, if_true,
    State.log, List.nil_append, hget]

/-- The service principal data source resolving by `object_id` hands the service principal
returned by Get over to the attribute mapping. -/
theorem servicePrincipalData_by_object_id (client : ServicePrincipalsClient)
    (fl : GraphFlatten) (d : ResourceData) (sp : ServicePrincipal)
    (hid : d.Get "object_id" ≠ "")
    (hget : client.Get [] (d.Get "object_id") = ServicePrincipalGetResponse.ok sp) :
    servicePrincipalDataRead client fl d =
      some (servicePrincipalDataSetAttributes fl sp
        (State.mk d [Event.get (d.Get "object_id")])) := by
  simp only [servicePrincipalDataRead, ResourceData.GetOk, hid, ne_eq, not_false_eq_true,
    decide_True, if_true, State.log, List.nil_append, hget]

/-- The attribute mapping of both data sources, started in any state `s`: a nil object id
gives the "Bad API response" diagnostic with resource data and trace as they were; a non-nil
one ends with the resource ID and the attribute `object_id` equal to it. -/
theorem setAttributes_object_id (client : MsClient) (fl : ApplicationFlatten)
    (gfl : GraphFlatten) (sp : ServicePrincipal) (app : Application) (s : State) :
    (sp.ObjectID = none →
      servicePrincipalDataSetAttributes gfl sp s =
        Result.mk [Diagnostic.Literal Severity.Error (Message.mk "Bad API response" [])
          (some (Message.mk "ObjectID returned for service principal is nil" [])) []]
          s.d s.trace) ∧
    (∀ id, sp.ObjectID = some id →
      (servicePrincipalDataSetAttributes gfl sp s).d.id = id ∧
      (servicePrincipalDataSetAttributes gfl sp s).d.attrs.lookup "object_id" =
        some (Value.str id)) ∧
    (app.ID = none →
      applicationDataSourceSetAttributes client fl app s =
        Result.mk [Diagnostic.ErrorDiagF
          (some (Message.mk "Object ID returned for application is nil" []))
          (Message.mk "Bad API Response" [])] s.d s.trace) ∧
    (∀ id, app.ID = some id →
      (applicationDataSourceSetAttributes client fl app s).d.id = id ∧
      (applicationDataSourceSetAttributes client fl app s).d.attrs.lookup "object_id" =
        some (Value.str id)) := by
  refine ⟨?_, ?_, ?_, ?_⟩
  · intro h
    simp [servicePrincipalDataSetAttributes, h, State.ret]
  · intro id h
    simp [servicePrincipalDataSetAttributes, h, State.ret, State.Set, State.SetId,
      ResourceData.Set, ResourceData.SetId, List.lookup, Value.ofPtr]
  · intro h
    simp [applicationDataSourceSetAttributes, h, State.ret]
  · intro id h
    have hweb := setWeb_object_id fl app (applicationDataSourceSetApi fl app
      (applicationDataSourceSetFields fl app id s))
    have hapi := setApi_object_id fl app (applicationDataSourceSetFields fl app id s)
    have hfields := setFields_object_id fl app id s h
    simp only [applicationDataSourceSetAttributes, h]
    split
    · simp only [State.ret, State.log]
      exact ⟨hweb.1.trans (hapi.1.trans hfields.1), hweb.2.trans (hapi.2.trans hfields.2)⟩
    · simp only [State.ret, State.log, State.Set, ResourceData.Set]
      refine ⟨hweb.1.trans (hapi.1.trans hfields.1), ?_⟩
      simp only [List.lookup]
      exact hweb.2.trans (hapi.2.trans hfields.2)

/-- The application data source resolving by filter hands the single application found,
whose queried field is the requested value, over to the attribute mapping. -/
theorem applicationDataSource_by_filter (client : MsClient) (fl : ApplicationFlatten)
    (d : ResourceData) (fieldName fieldValue : String) (app : Application)
    (hid : d.Get "object_id" = "")
    (hfield : applicationDataSourceField d = some (fieldName, fieldValue))
    (hlist : client.List [] (applicationFilter fieldName fieldValue) = Except.ok (some [app]))
    (hq : queriedField fieldName app = some fieldValue) :
    applicationDataSourceReadMsGraph client fl d =
      applicationDataSourceSetAttributes client fl app
        (State.mk d [Event.list (applicationFilter fieldName fieldValue)]) := by
  have hname := applicationDataSourceField_name d fieldName fieldValue hfield
  have hcheck := (checkField_eq_none_iff fieldName fieldValue
    (applicationFilter fieldName fieldValue) app hname).mpr hq
  simp only [applicationDataSourceReadMsGraph, hid, ne_eq, not_true_eq_false, if_false,
    hfield, State.log, List.nil_append, hlist, hcheck]

/-- The service principal data source resolving by `display_name` hands the first service
principal with that display name over to the attribute mapping. -/
theorem servicePrincipalData_by_display_name (client : ServicePrincipalsClient)
    (fl : GraphFlatten) (d : ResourceData) (pre post : List ServicePrincipal)
    (sp : ServicePrincipal) (hid : d.Get "object_id" = "") (hname : d.Get "display_name" ≠ "")
    (hlist : client.ListComplete [] ("displayName eq '" ++ d.Get "display_name" ++ "'") =
      Except.ok (some (pre ++ sp :: post)))
    (hpre : ∀ a ∈ pre, a.DisplayName ≠ some (d.Get "display_name"))
    (hsp : sp.DisplayName = some (d.Get "display_name")) :
    servicePrincipalDataRead client fl d =
      some (servicePrincipalDataSetAttributes fl sp (State.mk d
        [Event.listComplete ("displayName eq '" ++ d.Get "display_name" ++ "'")])) := by
  simp only [servicePrincipalDataRead, ResourceData.GetOk, hid, hname, ne_eq,
    not_true_eq_false, not_false_eq_true, decide_False, decide_True, Bool.false_eq_true,
    if_false, if_true, State.log, List.nil_append, hlist,
    findByDisplayName_first _ pre post sp hpre hsp]

/-- The service principal data source resolving by `application_id` hands the first service
principal with that application id over to the attribute mapping. -/
theorem servicePrincipalData_by_application_id (client : ServicePrincipalsClient)
    (fl : GraphFlatten) (d : ResourceData) (pre post : List ServicePrincipal)
    (sp : ServicePrincipal) (hid : d.Get "object_id" = "") (hname : d.Get "display_name" = "")
    (hlist : client.ListComplete [] ("appId eq '" ++ d.Get "application_id" ++ "'") =
      Except.ok (some (pre ++ sp :: post)))
    (hpre : ∀ a ∈ pre, a.AppID ≠ some (d.Get "application_id"))
    (hsp : sp.AppID = some (d.Get "application_id")) :
    servicePrincipalDataRead client fl d =
      some (servicePrincipalDataSetAttributes fl sp (State.mk d
        [Event.listComplete ("appId eq '" ++ d.Get "application_id" ++ "'")])) := by
  simp only [servicePrincipalDataRead, ResourceData.GetOk, hid, hname, ne_eq,
    not_true_eq_false, decide_False, Bool.false_eq_true, if_false, State.log,
    List.nil_append, hlist, findByAppID_first _ pre post sp hpre hsp]

/-- C14: for every object that `servicePrincipalDataRead` resolves (by `object_id` through
Get, by `display_name` or by `application_id` as the first match of ListComplete) and every
object that `applicationDataSourceReadMsGraph` resolves (by `object_id` through Get, or as the
single matching result of List): when the object id returned by the API is nil, the read
returns exactly the "Bad API response" error diagnostic, the resource data is as it was and
the trace holds the lookup only, so neither the resource ID nor any attribute is set;
otherwise the read ends with the resource ID and the attribute `object_id` both equal to that
object id. -/
theorem resolved_object_id (client : MsClient) (fl : ApplicationFlatten)
    (spClient : ServicePrincipalsClient) (gfl : GraphFlatten) (d : ResourceData) :
    (d.Get "object_id" ≠ "" → ∀ sp,
      spClient.Get [] (d.Get "object_id") = ServicePrincipalGetResponse.ok sp →
      ∃ r, servicePrincipalDataRead spClient gfl d = some r ∧
        (sp.ObjectID = none →
          r = Result.mk [Diagnostic.Literal Severity.Error (Message.mk "Bad API response" [])
            (some (Message.mk "ObjectID returned for service principal is nil" [])) []] d
            [Event.get (d.Get "object_id")]) ∧
        (∀ id, sp.ObjectID = some id →
          r.d.id = id ∧ r.d.attrs.lookup "object_id" = some (Value.str id))) ∧
    (d.Get "object_id" = "" → d.Get "display_name" ≠ "" → ∀ pre sp post,
      spClient.ListComplete [] ("displayName eq '" ++ d.Get "display_name" ++ "'") =
        Except.ok (some (pre ++ sp :: post)) →
      (∀ a ∈ pre, a.DisplayName ≠ some (d.Get "display_name")) →
      sp.DisplayName = some (d.Get "display_name") →
      ∃ r, servicePrincipalDataRead spClient gfl d = some r ∧
        (sp.ObjectID = none →
          r = Result.mk [Diagnostic.Literal Severity.Error (Message.mk "Bad API response" [])
            (some (Message.mk "ObjectID returned for service principal is nil" [])) []] d
            [Event.listComplete ("displayName eq '" ++ d.Get "display_name" ++ "'")]) ∧
        (∀ id, sp.ObjectID = some id →
          r.d.id = id ∧ r.d.attrs.lookup "object_id" = some (Value.str id))) ∧
    (d.Get "object_id" = "" → d.Get "display_name" = "" → ∀ pre sp post,
      spClient.ListComplete [] ("appId eq '" ++ d.Get "application_id" ++ "'") =
        Except.ok (some (pre ++ sp :: post)) →
      (∀ a ∈ pre, a.AppID ≠ some (d.Get "application_id")) →
      sp.AppID = some (d.Get "application_id") →
      ∃ r, servicePrincipalDataRead spClient gfl d = some r ∧
        (sp.ObjectID = none →
          r = Result.mk [Diagnostic.Literal Severity.Error (Message.mk "Bad API response" [])
            (some (Message.mk "ObjectID returned for service principal is nil" [])) []] d
            [Event.listComplete ("appId eq '" ++ d.Get "application_id" ++ "'")]) ∧
        (∀ id, sp.ObjectID = some id →
          r.d.id = id ∧ r.d.attrs.lookup "object_id" = some (Value.str id))) ∧
    (d.Get "object_id" ≠ "" → ∀ app,
      client.Get [] (d.Get "object_id") = GetResponse.ok app →
      (app.ID = none →
        applicationDataSourceReadMsGraph client fl d =
          Result.mk [Diagnostic.ErrorDiagF
            (some (Message.mk "Object ID returned for application is nil" []))
            (Message.mk "Bad API Response" [])] d [Event.get (d.Get "object_id")]) ∧
      (∀ id, app.ID = some id →
        (applicationDataSourceReadMsGraph client fl d).d.id = id ∧
        (applicationDataSourceReadMsGraph client fl d).d.attrs.lookup "object_id" =
          some (Value.str id))) ∧
    (d.Get "object_id" = "" → ∀ fieldName fieldValue app,
      applicationDataSourceField d = some (fieldName, fieldValue) →
      client.List [] (applicationFilter fieldName fieldValue) = Except.ok (some [app]) →
      queriedField fieldName app = some fieldValue →
      (app.ID = none →
        applicationDataSourceReadMsGraph client fl d =
          Result.mk [Diagnostic.ErrorDiagF
            (some (Message.mk "Object ID returned for application is nil" []))
            (Message.mk "Bad API Response" [])] d
            [Event.list (applicationFilter fieldName fieldValue)]) ∧
      (∀ id, app.ID = some id →
        (applicationDataSourceReadMsGraph client fl d).d.id = id ∧
        (applicationDataSourceReadMsGraph client fl d).d.attrs.lookup "object_id" =
          some (Value.str id))) := by
  have hsp : ∀ (sp : ServicePrincipal) (t : Trace),
      (sp.ObjectID = none →
        servicePrincipalDataSetAttributes gfl sp (State.mk d t) =
          Result.mk [Diagnostic.Literal Severity.Error (Message.mk "Bad API response" [])
            (some (Message.mk "ObjectID returned for service principal is nil" [])) []] d t) ∧
      (∀ id, sp.ObjectID = some id →
        (servicePrincipalDataSetAttributes gfl sp (State.mk d t)).d.id = id ∧
        (servicePrincipalDataSetAttributes gfl sp (State.mk d t)).d.attrs.lookup "object_id" =
          some (Value.str id)) := fun sp t =>
    ⟨(setAttributes_object_id client fl gfl sp (sampleApplication none) (State.mk d t)).1,
      (setAttributes_object_id client fl gfl sp (sampleApplication none) (State.mk d t)).2.1⟩
  have happ : ∀ (app : Application) (t : Trace),
      (app.ID = none →
        applicationDataSourceSetAttributes client fl app (State.mk d t) =
          Result.mk [Diagnostic.ErrorDiagF
            (some (Message.mk "Object ID returned for application is nil" []))
            (Message.mk "Bad API Response" [])] d t) ∧
      (∀ id, app.ID = some id →
        (applicationDataSourceSetAttributes client fl app (State.mk d t)).d.id = id ∧
        (applicationDataSourceSetAttributes client fl app (State.mk d t)).d.attrs.lookup
          "object_id" = some (Value.str id)) := fun app t =>
    ⟨(setAttributes_object_id client fl gfl sampleEmptyAppID app (State.mk d t)).2.2.1,
      (setAttributes_object_id client fl gfl sampleEmptyAppID app (State.mk d t)).2.2.2⟩
  refine ⟨?_, ?_, ?_, ?_, ?_⟩
  · intro hid sp hget
    exact ⟨_, servicePrincipalData_by_object_id spClient gfl d sp hid hget, hsp sp _⟩
  · intro hid hname pre sp post hlist hpre hmatch
    exact ⟨_, servicePrincipalData_by_display_name spClient gfl d pre post sp hid hname hlist
      hpre hmatch, hsp sp _⟩
  · intro hid hname pre sp post hlist hpre hmatch
    exact ⟨_, servicePrincipalData_by_application_id spClient gfl d pre post sp hid hname hlist
      hpre hmatch, hsp sp _⟩
  · intro hid app hget
    rw [applicationDataSource_by_object_id client fl d app hid hget]
    exact happ app _
  · intro hid fieldName fieldValue app hfield hlist hq
    rw [applicationDataSource_by_filter client fl d fieldName fieldValue app hid hfield hlist
      hq]
    exact happ app _

theorem resolved_object_id_witness :
    servicePrincipalDataRead
        (sampleServicePrincipalsClient (Except.ok (some
          [sampleServicePrincipal "sp0" none, sampleNoObjectId])))
        sampleGraphFlatten sampleSpByDisplayName =
      some (Result.mk [Diagnostic.Literal Severity.Error (Message.mk "Bad API response" [])
        (some (Message.mk "ObjectID returned for service principal is nil" [])) []]
        sampleSpByDisplayName [Event.listComplete "displayName eq 'sp one'"]) ∧
      Option.map (fun r => (r.d.id, r.d.attrs.lookup "object_id")) (servicePrincipalDataRead
        (sampleServicePrincipalsClient (Except.ok (some
          [sampleServicePrincipal "sp0" none, sampleServicePrincipal "sp1" (some "sp one")])))
        sampleGraphFlatten sampleSpByDisplayName) = some ("sp1", some (Value.str "sp1")) := by
  constructor
  · obtain ⟨r, hr, hnil, _⟩ := (resolved_object_id (sampleClient (GetResponse.ok
      (sampleApplication none))) sampleFlatten
      (sampleServicePrincipalsClient (Except.ok (some
        [sampleServicePrincipal "sp0" none, sampleNoObjectId])))
      sampleGraphFlatten sampleSpByDisplayName).2.1 (by decide) (by decide)
      [sampleServicePrincipal "sp0" none] sampleNoObjectId [] rfl (by decide) (by decide)
    rw [hr, hnil rfl]
    rfl
  · obtain ⟨r, hr, _, hset⟩ := (resolved_object_id (sampleClient (GetResponse.ok
      (sampleApplication none))) sampleFlatten
      (sampleServicePrincipalsClient (Except.ok (some
        [sampleServicePrincipal "sp0" none, sampleServicePrincipal "sp1" (some "sp one")])))
      sampleGraphFlatten sampleSpByDisplayName).2.1 (by decide) (by decide)
      [sampleServicePrincipal "sp0" none] (sampleServicePrincipal "sp1" (some "sp one")) []
      rfl (by decide) (by decide)
    rw [hr, Option.map_some', (hset "sp1" rfl).1, (hset "sp1" rfl).2]

/-! ## The credential list: add, then remove -/

/-- C15: for a key-credential list `L` in which every credential has a non-nil KeyId other
than `k` and a credential `c` with key id `k`: the create loop keeps `L`, so the list sent by
create is `L` followed by `c`, and the delete transformation for `k` applied to it gives back
exactly `L`; applying the delete transformation for `k` twice, to any list, gives the same as
applying it once. -/
theorem add_then_remove_round_trip (k : String) (L : List KeyCredential) (c : KeyCredential)
    (hL : ∀ cred ∈ L, ∃ v, cred.KeyId = some v ∧ v ≠ k) (hc : c.KeyId = some k) :
    createLoop k L [] = some L ∧
      deleteLoop k (L ++ [c]) [] = L ∧
      ∀ M, deleteLoop k (deleteLoop k M []) [] = deleteLoop k M [] := by
  refine ⟨?_, ?_, ?_⟩
  · have h := createLoop_eq_append k L [] (fun cred hmem => by
      obtain ⟨v, hv, hne⟩ := hL cred hmem
      rw [hv]
      exact fun e => hne (Option.some.inj e))
    simpa using h
  · rw [deleteLoop_eq_filter, List.nil_append, List.filter_append]
    have hkeep :
        L.filter (fun cred => decide (cred.KeyId ≠ none ∧ cred.KeyId ≠ some k)) = L := by
      rw [List.filter_eq_self]
      intro cred hmem
      obtain ⟨v, hv, hne⟩ := hL cred hmem
      simp [hv, hne]
    rw [hkeep]
    simp [hc]
  · intro M
    rw [deleteLoop_eq_filter, deleteLoop_eq_filter, List.nil_append, List.nil_append,
      List.filter_filter]
    simp

theorem add_then_remove_round_trip_witness :
    (∀ cred ∈ [otherCert], ∃ v, cred.KeyId = some v ∧ v ≠ sampleKeyId) ∧
      sampleCert.KeyId = some sampleKeyId ∧
      deleteLoop sampleKeyId ([otherCert] ++ [sampleCert]) [] = [otherCert] :=
  ⟨by decide, rfl,
    (add_then_remove_round_trip sampleKeyId [otherCert] sampleCert (by decide) rfl).2.1⟩

/-! ## The client configuration data source -/

/-- C16: for every client configuration the client configuration data source sets the
resource ID to `TenantID-ClientID-ObjectId` and the attributes `tenant_id`, `client_id` and
`object_id` to TenantID, ClientID and Claims.ObjectId, an empty Claims.ObjectId included (the
test on it changes nothing); it returns no diagnostics and its trace holds no remote call. -/
theorem client_config_read (client : Client) (d : ResourceData) :
    (clientConfigDataSourceReadMsGraph client d).d.id =
        client.TenantID ++ "-" ++ client.ClientID ++ "-" ++ client.Claims.ObjectId ∧
      (clientConfigDataSourceReadMsGraph client d).d.attrs.lookup "tenant_id" =
        some (Value.str client.TenantID) ∧
      (clientConfigDataSourceReadMsGraph client d).d.attrs.lookup "client_id" =
        some (Value.str client.ClientID) ∧
      (clientConfigDataSourceReadMsGraph client d).d.attrs.lookup "object_id" =
        some (Value.str client.Claims.ObjectId) ∧
      (clientConfigDataSourceReadMsGraph client d).diags = [] ∧
      remoteCalls (clientConfigDataSourceReadMsGraph client d).trace = [] ∧
      (clientConfigDataSourceReadMsGraph client d).trace =
        [Event.setId
            (client.TenantID ++ "-" ++ client.ClientID ++ "-" ++ client.Claims.ObjectId),
          Event.set "tenant_id" (Value.str client.TenantID),
          Event.set "client_id" (Value.str client.ClientID),
          Event.set "object_id" (Value.str client.Claims.ObjectId)] := by
  have hobj : (if client.Claims.ObjectId ≠ "" then client.Claims.ObjectId else "") =
      client.Claims.ObjectId := by
    by_cases h : client.Claims.ObjectId = ""
    · simp [h]
    · simp [h]
  simp only [clientConfigDataSourceReadMsGraph, hobj]
  refine ⟨rfl, ?_, ?_, ?_, rfl, rfl, rfl⟩ <;>
    simp [State.ret, State.Set, State.SetId, ResourceData.Set, ResourceData.SetId, List.lookup]

end AzureAD
